import Mathlib

/-!
# Verification of mobx-observable-history

A shallow embedding of the `mobx-observable-history` package: an observable
wrapper around a history.js backend that keeps three views of the current
location in sync (the navigation backend, an observable composite location
object, and a reactive `URLSearchParams` view).

The embedding models, faithfully to the TypeScript source:

* `normalize` (src/index.ts) — prefix normalization of `search` / `hash` chunks;
* history.js v4 helpers consumed by the package (`parsePath`, `createPath`,
  `createLocation`, `locationsAreEqual`) — external collaborators of the
  package, modelled from the history.js v4 semantics the code relies on;
* the WHATWG `URLSearchParams` operations used by the package (parse,
  serialize, `set`, `append`, `delete`, `sort`, `get`) and the JS global
  `encodeURI` — platform collaborators, modelled over characters, with
  percent-decoded bytes below 0x80 treated as ASCII and higher bytes as
  Latin-1 code points (every input exercised by the theorems is ASCII);
* the synchronization engine of `createObservableHistory` (src/index.ts):
  the mobx reactions, the write interceptor, the history listener, `merge`
  and `destroy`, with mobx propagation modelled by an explicit fuel-bounded
  stabilization loop over the last-seen values of the two reactions.

Whitespace trimming is modelled by an explicit character-level trim
(`jsTrim`), mirroring `String.prototype.trim`.
-/

namespace MobxHistory

/-- One whitespace test, mirroring the JS whitespace class used by
`String.prototype.trim` (restricted to the common ASCII whitespace). -/
def isWs (c : Char) : Bool :=
  c = ' ' || c = '\t' || c = '\n' || c = '\r' || c = '\x0b' || c = '\x0c'

/-- Trim on character lists: drop whitespace from both ends. -/
def trimL (l : List Char) : List Char :=
  ((l.dropWhile isWs).reverse.dropWhile isWs).reverse

/-- Model of `String.prototype.trim`. -/
def jsTrim (s : String) : String :=
  String.mk (trimL s.toList)

/-- `normalize(urlChunk, prefix)` from src/index.ts (identical function in
src/unnamed/part_001 and src/unnamed/part_003): trim, collapse the bare
prefix character (or the empty string) to the empty string, keep a value
already carrying the prefix, otherwise prepend the prefix. -/
def normalize (urlChunk : String) (pfx : String) : String :=
  let u := jsTrim urlChunk
  if u = "" ∨ u = pfx then ""
  else if pfx.toList.isPrefixOf u.toList then u
  else pfx ++ u

/-- C3: the normalizer trims whitespace; a trimmed input that is empty or the
bare prefix character canonicalizes to the empty string; an input already
carrying the prefix passes through unchanged (no doubled prefix); any other
input gets exactly one prefix character prepended. -/
theorem C3_normalize_cases (s p : String) (hp : p = "?" ∨ p = "#") :
    (jsTrim s = "" ∨ jsTrim s = p → normalize s p = "")
    ∧ (jsTrim s ≠ "" → jsTrim s ≠ p → p.toList.isPrefixOf (jsTrim s).toList →
        normalize s p = jsTrim s)
    ∧ (jsTrim s ≠ "" → jsTrim s ≠ p → ¬ p.toList.isPrefixOf (jsTrim s).toList →
        normalize s p = p ++ jsTrim s) := by
  clear hp
  unfold normalize
  refine ⟨fun h => ?_, fun h1 h2 h3 => ?_, fun h1 h2 h3 => ?_⟩
  · have hj : (jsTrim s).toList = (jsTrim s).toList := rfl
    simp only [jsTrim] at *
    rw [if_pos h]
  · rw [if_neg (by tauto), if_pos h3]
  · rw [if_neg (by tauto), if_neg h3]

/-- Witness for C3 at concrete inputs: trimming, bare-prefix collapse and the
pass-through of an already prefixed value. -/
theorem C3_normalize_cases_witness :
    normalize " ? " "?" = "" ∧ normalize "?x" "?" = "?x" ∧ normalize "x" "?" = "?x" := by
  have h := C3_normalize_cases " ? " "?" (Or.inl rfl)
  have h2 := C3_normalize_cases "?x" "?" (Or.inl rfl)
  have h3 := C3_normalize_cases "x" "?" (Or.inl rfl)
  exact ⟨h.1 (Or.inr (by decide)), h2.2.1 (by decide) (by decide) (by decide),
    h3.2.2 (by decide) (by decide) (by decide)⟩

end MobxHistory

namespace MobxHistory

/-! ## Percent encoding / decoding (platform collaborators)

`encodeURI`, `decodeURI` and the WHATWG url-encoded serializer/parser are
globals of the JS platform consumed by the package.  They are modelled over
`Char`: a percent escape `%XX` decodes to the character with code `XX`
(exact for ASCII, Latin-1 for `0x80`-`0xFF`), and characters below `0x80`
encode to a single escape.  All strings exercised by the theorems below are
ASCII, where this model agrees with the UTF-8 based platform behavior. -/

/-- Uppercase hex digit of a value below 16. -/
def hexDigit (n : Nat) : Char :=
  if n < 10 then Char.ofNat (48 + n) else Char.ofNat (55 + n)

/-- Numeric value of a hex digit character, if it is one. -/
def hexVal (c : Char) : Option Nat :=
  if '0' ≤ c ∧ c ≤ '9' then some (c.toNat - 48)
  else if 'A' ≤ c ∧ c ≤ 'F' then some (c.toNat - 55)
  else if 'a' ≤ c ∧ c ≤ 'f' then some (c.toNat - 87)
  else none

/-- UTF-8 bytes of one character (scalar value encoding). -/
def utf8Bytes (c : Char) : List Nat :=
  let n := c.toNat
  if n < 0x80 then [n]
  else if n < 0x800 then [0xC0 + n / 64, 0x80 + n % 64]
  else if n < 0x10000 then [0xE0 + n / 4096, 0x80 + (n / 64) % 64, 0x80 + n % 64]
  else [0xF0 + n / 262144, 0x80 + (n / 4096) % 64, 0x80 + (n / 64) % 64, 0x80 + n % 64]

/-- `%XX` escape of one byte. -/
def pctByte (b : Nat) : List Char :=
  ['%', hexDigit (b / 16), hexDigit (b % 16)]

/-- Percent-escape one character (all of its UTF-8 bytes). -/
def pctChar (c : Char) : List Char :=
  (utf8Bytes c).flatMap pctByte

/-- Characters `encodeURI` leaves unescaped: alphanumerics, the mark set
and the URI reserved set (including `#`). -/
def encodeURIKeeps (c : Char) : Bool :=
  c.isAlphanum ||
  c = '-' || c = '_' || c = '.' || c = '!' || c = '~' || c = '*' || c = '\'' ||
  c = '(' || c = ')' ||
  c = ';' || c = '/' || c = '?' || c = ':' || c = '@' || c = '&' || c = '=' ||
  c = '+' || c = '$' || c = ',' || c = '#'

/-- Model of the JS global `encodeURI`. -/
def encodeURIStr (s : String) : String :=
  String.mk (s.toList.flatMap fun c => if encodeURIKeeps c then [c] else pctChar c)

/-- Characters that stay literal in a `decodeURI` output: the escapes of the
URI reserved set (and `#`) are NOT decoded by `decodeURI`. -/
def decodeURISkips (b : Nat) : Bool :=
  (Char.ofNat b) = ';' || (Char.ofNat b) = '/' || (Char.ofNat b) = '?' ||
  (Char.ofNat b) = ':' || (Char.ofNat b) = '@' || (Char.ofNat b) = '&' ||
  (Char.ofNat b) = '=' || (Char.ofNat b) = '+' || (Char.ofNat b) = '$' ||
  (Char.ofNat b) = ',' || (Char.ofNat b) = '#'

/-- Model of the JS global `decodeURI` on character lists, recursing on a
character budget so that the kernel can evaluate it (each step consumes at
least one character).  An escape of a reserved character is kept literal; a
malformed escape is also kept literal (the platform would raise `URIError`;
no theorem below touches that case). -/
def decodeURIGo : Nat → List Char → List Char
  | 0, l => l
  | _ + 1, [] => []
  | n + 1, '%' :: a :: b :: rest2 =>
    match hexVal a, hexVal b with
    | some ha, some hb =>
      let v := 16 * ha + hb
      if decodeURISkips v then '%' :: a :: b :: decodeURIGo n rest2
      else Char.ofNat v :: decodeURIGo n rest2
    | _, _ => '%' :: decodeURIGo n (a :: b :: rest2)
  | n + 1, c :: rest => c :: decodeURIGo n rest

/-- Model of the JS global `decodeURI`. -/
def decodeURIStr (s : String) : String :=
  String.mk (decodeURIGo s.toList.length s.toList)

/-! ## history.js v4 location helpers (external collaborators) -/

/-- A history.js `Location`: `pathname`, `search`, `hash`, an opaque `state`
payload and the history `key`.  `state` payloads are modelled as opaque
numbers, `key` as a number drawn from the backend counter (history.js uses
random strings; only freshness matters to the package). -/
structure Loc where
  pathname : String
  search : String
  hash : String
  state : Option Nat
  key : Option Nat
deriving DecidableEq, Repr

/-- Split a character list at the first occurrence of `c`: returns the part
before it and the suffix starting with `c` (empty if `c` does not occur),
mirroring `indexOf` + two `substr` calls in history.js `parsePath`. -/
def breakAtFirst (c : Char) : List Char → List Char × List Char
  | [] => ([], [])
  | x :: xs =>
    if x = c then ([], x :: xs)
    else
      let p := breakAtFirst c xs
      (x :: p.1, p.2)

/-- history.js v4 `parsePath`: split a path string into pathname, search and
hash; a bare `?` or `#` chunk collapses to the empty string.  The returned
location has no state and no key. -/
def parsePath (path : String) : Loc :=
  let p0 := if path = "" then "/".toList else path.toList
  let h := breakAtFirst '#' p0
  let hash := String.mk h.2
  let q := breakAtFirst '?' h.1
  let search := String.mk q.2
  { pathname := String.mk q.1
    search := if search = "?" then "" else search
    hash := if hash = "#" then "" else hash
    state := none
    key := none }

/-- history.js v4 `createPath`: pathname (defaulting to `/`) followed by the
search chunk (prefixed with `?` when missing) and the hash chunk (prefixed
with `#` when missing); bare `?` / `#` chunks are dropped. -/
def createPath (l : Loc) : String :=
  let path := if l.pathname = "" then "/" else l.pathname
  let path :=
    if l.search ≠ "" ∧ l.search ≠ "?" then
      path ++ (if l.search.toList.head? = some '?' then l.search else "?" ++ l.search)
    else path
  if l.hash ≠ "" ∧ l.hash ≠ "#" then
    path ++ (if l.hash.toList.head? = some '#' then l.hash else "#" ++ l.hash)
  else path

/-- history.js v4 `createLocation` on a string path with no state, key or
current location: `parsePath`, decode the pathname, default it to `/`. -/
def createLocationStr (path : String) : Loc :=
  let l := parsePath path
  let pn := decodeURIStr l.pathname
  { l with pathname := if pn = "" then "/" else pn }

/-- history.js v4 `createLocation` on a location descriptor object, with a
current location (the object branch used inside `push` / `replace`): ensure
the `?` / `#` prefixes, decode the pathname and default it to the current
pathname.  Relative-pathname resolution is not modelled (every pathname the
package passes here is absolute). -/
def createLocationObj (d : Loc) (cur : Loc) : Loc :=
  let search := if d.search = "" then "" else
    (if d.search.toList.head? = some '?' then d.search else "?" ++ d.search)
  let hash := if d.hash = "" then "" else
    (if d.hash.toList.head? = some '#' then d.hash else "#" ++ d.hash)
  let pn := decodeURIStr d.pathname
  { pathname := if pn = "" then cur.pathname else pn
    search := search
    hash := hash
    state := d.state
    key := d.key }

/-- history.js v4 `locationsAreEqual`: pathname, search, hash, key and
(structurally) state. -/
def locationsAreEqual (a b : Loc) : Bool :=
  a.pathname = b.pathname ∧ a.search = b.search ∧ a.hash = b.hash ∧
    a.key = b.key ∧ a.state = b.state

end MobxHistory

namespace MobxHistory

/-! ## URLSearchParams (platform collaborator) and the package search-params
extensions -/

/-- Ordered multi-map content of a `URLSearchParams` object. -/
abbrev Params := List (String × String)

/-- Split a character list on a separator character (WHATWG urlencoded
parsing splits the input on `&`). -/
def splitOnChar (c : Char) : List Char → List (List Char)
  | [] => [[]]
  | x :: xs =>
    let r := splitOnChar c xs
    if x = c then [] :: r
    else
      match r with
      | [] => [[x]]
      | h :: t => (x :: h) :: t

/-- WHATWG urlencoded percent-decoding on character lists (a `%XX` escape
becomes the character with code `XX`; malformed escapes stay literal),
recursing on a character budget so that the kernel can evaluate it. -/
def pctDecodeGo : Nat → List Char → List Char
  | 0, l => l
  | _ + 1, [] => []
  | n + 1, '%' :: a :: b :: rest2 =>
    match hexVal a, hexVal b with
    | some ha, some hb => Char.ofNat (16 * ha + hb) :: pctDecodeGo n rest2
    | _, _ => '%' :: pctDecodeGo n (a :: b :: rest2)
  | n + 1, c :: rest => c :: pctDecodeGo n rest

/-- WHATWG urlencoded component decoding: `+` becomes a space, then
percent-decode. -/
def wwwDecode (l : List Char) : String :=
  String.mk (pctDecodeGo l.length (l.map fun c => if c = '+' then ' ' else c))

/-- `new URLSearchParams(search)`: strip one leading `?`, split on `&`, skip
empty pieces, split each piece at the first `=` and decode both sides. -/
def parseSearch (search : String) : Params :=
  let l := search.toList
  let l := match l with
    | '?' :: rest => rest
    | _ => l
  (splitOnChar '&' l).filterMap fun piece =>
    if piece = [] then none
    else
      let p := breakAtFirst '=' piece
      let value := match p.2 with
        | [] => []
        | _ :: v => v
      some (wwwDecode p.1, wwwDecode value)

/-- Bytes the WHATWG urlencoded serializer keeps literal:
`*`, `-`, `.`, `_` and alphanumerics. -/
def wwwKeeps (c : Char) : Bool :=
  c = '*' || c = '-' || c = '.' || c = '_' || c.isAlphanum

/-- WHATWG urlencoded component serialization: space to `+`, kept bytes
literal, everything else percent-escaped. -/
def wwwEncode (s : String) : String :=
  String.mk (s.toList.flatMap fun c =>
    if c = ' ' then ['+']
    else if wwwKeeps c then [c]
    else pctChar c)

/-- `URLSearchParams.prototype.toString`: serialize every pair as
`name=value` with the urlencoded serializer, joined by `&`. -/
def nativeToString (ps : Params) : String :=
  String.intercalate "&" (ps.map fun kv => wwwEncode kv.1 ++ "=" ++ wwwEncode kv.2)

/-- `URLSearchParams.prototype.append`. -/
def paramsAppend (ps : Params) (n v : String) : Params :=
  ps ++ [(n, v)]

/-- `URLSearchParams.prototype.delete` (all values of one name). -/
def paramsDelete (ps : Params) (n : String) : Params :=
  ps.filter fun kv => kv.1 ≠ n

/-- `URLSearchParams.prototype.set`: replace the value of the first entry
with the given name and drop the other entries with that name, or append
when the name is absent. -/
def paramsSet (ps : Params) (n v : String) : Params :=
  match ps with
  | [] => [(n, v)]
  | (m, w) :: rest =>
    if m = n then (n, v) :: paramsDelete rest n
    else (m, w) :: paramsSet rest n v

/-- Code-unit comparison of names, as the `URLSearchParams.sort`
comparator prescribes. -/
def charListLt : List Char → List Char → Bool
  | [], [] => false
  | [], _ :: _ => true
  | _ :: _, [] => false
  | a :: as, b :: bs =>
    if a.toNat < b.toNat then true
    else if b.toNat < a.toNat then false
    else charListLt as bs

/-- Name order for `sort`. -/
def nameLt (a b : String) : Bool :=
  charListLt a.data b.data

/-- Stable insertion by name (strictly greater keys move right, equal keys
keep their relative order). -/
def insertByName (p : String × String) : Params → Params
  | [] => [p]
  | q :: qs => if nameLt p.1 q.1 then p :: q :: qs else q :: insertByName p qs

/-- `URLSearchParams.prototype.sort`: stable sort of the entries by name. -/
def paramsSort (ps : Params) : Params :=
  ps.foldl (fun acc p => insertByName p acc) []

/-- `URLSearchParams.prototype.get`: value of the first entry with the given
name, if any. -/
def paramsGet (ps : Params) (n : String) : Option String :=
  (ps.find? fun kv => kv.1 = n).map fun kv => kv.2

/-- The encoder argument of the package `toString` extensions.  The source
compares the configured encoder against `encodeURIComponent` by function
identity and falls back to the native serializer for it; any other function
is applied to each value. -/
inductive UriEncoder where
  | componentNative : UriEncoder
  | custom : (String → String) → UriEncoder

/-- `searchParamsExtras.toString` from src/index.ts (the same algorithm as
`URLSearchParamsExtended.toString` in src/lib/search-params.ts): optional
`?` prefix, then either the native serialization (when the encoder is
`encodeURIComponent`) or `name=encoder(value)` pairs joined by `&` (names
unencoded). -/
def extToString (ps : Params) (enc : UriEncoder) (withPrefix : Bool) : String :=
  let pfx := if withPrefix then "?" else ""
  match enc with
  | .componentNative => pfx ++ nativeToString ps
  | .custom f => pfx ++ String.intercalate "&" (ps.map fun kv => kv.1 ++ "=" ++ f kv.2)

/-- The engine default `toString()` of a search-params object:
`uriParamDefaultEncoder` defaults to `encodeURI` and `withPrefix` to
`false`. -/
def engineToString (ps : Params) : String :=
  extToString ps (.custom encodeURIStr) false

/-- `ObservableSearchParams.toString` from
src/lib/observable-search-params.ts: the canonical `search` field, with the
`?` prefix only when the field is non-empty. -/
def obsToString (search : String) (withPrefix : Bool) : String :=
  if search = "" then "" else (if withPrefix then "?" else "") ++ search

end MobxHistory

namespace MobxHistory

/-! ## The navigation backend (history.js createBrowserHistory, external)

The backend is modelled from the interface the package consumes: a log of
entries with a current index, `push` / `replace` that normalize a location
descriptor through `createLocation` with a fresh key and notify the
listener, and the last navigation action. -/

/-- The history.js `Action` enum. -/
inductive NavAction where
  | push : NavAction
  | replace : NavAction
  | pop : NavAction
deriving DecidableEq, Repr

/-- The navigation backend state: entry log, current index, the key counter
(history.js draws random keys; only freshness matters) and the last
action. -/
structure Backend where
  entries : List Loc
  index : Nat
  nextKey : Nat
  action : NavAction
deriving DecidableEq, Repr

/-- The current entry of the backend. -/
def Backend.current (b : Backend) : Loc :=
  b.entries.getD b.index ⟨"/", "", "", none, none⟩

/-- history.js `push` with a location descriptor: normalize it against the
current location, stamp a fresh key, drop the forward entries and append. -/
def Backend.doPush (b : Backend) (d : Loc) : Backend × Loc :=
  let loc := { createLocationObj d b.current with key := some b.nextKey }
  (⟨b.entries.take (b.index + 1) ++ [loc], b.index + 1, b.nextKey + 1, .push⟩, loc)

/-- history.js `replace` with a location descriptor: normalize, stamp a
fresh key, overwrite the current entry. -/
def Backend.doReplace (b : Backend) (d : Loc) : Backend × Loc :=
  let loc := { createLocationObj d b.current with key := some b.nextKey }
  (⟨b.entries.set b.index loc, b.index, b.nextKey + 1, .replace⟩, loc)

/-! ## The synchronization engine (createObservableHistory, src/index.ts)

mobx propagation is modelled explicitly: the two reactions installed by the
engine keep their last-seen value (`r1Last` for `data.location.search`,
`r2Last` for `createPath(data.location)`), writes only mutate the store, and
a fuel-bounded `stabilize` loop re-runs any reaction whose observed value
moved away from its last-seen value, exactly as the mobx batch runner does.
`notifyCount` counts store mutations that notify observers (changed atoms
and rebuilt `searchParams` references), `reactionRuns` counts reaction
executions, `pushCount` / `replaceCount` count the backend calls. -/

/-- The writable string fields of the observable location. -/
inductive LocField where
  | pathname : LocField
  | search : LocField
  | hash : LocField
deriving DecidableEq, Repr

/-- Read one string field. -/
def Loc.getF (l : Loc) : LocField → String
  | .pathname => l.pathname
  | .search => l.search
  | .hash => l.hash

/-- Overwrite one string field. -/
def Loc.setF (l : Loc) : LocField → String → Loc
  | .pathname, v => { l with pathname := v }
  | .search, v => { l with search := v }
  | .hash, v => { l with hash := v }

/-- The write interceptor installed on `data.location` (src/index.ts): a
`search` or `hash` update is rewritten through `normalize` before being
stored; other fields pass through. -/
def interceptChange (f : LocField) (v : String) : String :=
  match f with
  | .search => normalize v "?"
  | .hash => normalize v "#"
  | .pathname => v

/-- Number of fields on which two locations differ (each differing field is
one mobx atom notification during an `Object.assign`). -/
def countChanged (a b : Loc) : Nat :=
  (if a.pathname = b.pathname then 0 else 1) + (if a.search = b.search then 0 else 1) +
    (if a.hash = b.hash then 0 else 1) + (if a.state = b.state then 0 else 1) +
    (if a.key = b.key then 0 else 1)

/-- The engine state. -/
structure Engine where
  backend : Backend
  action : NavAction
  location : Loc
  searchParams : Params
  r1Last : String
  r2Last : String
  disposed : Bool
  pushCount : Nat
  replaceCount : Nat
  notifyCount : Nat
  reactionRuns : Nat
deriving DecidableEq, Repr

/-- Store one field of `data.location` through the interceptor (inactive
once `destroy` has disposed it); an unchanged value does not notify. -/
def locFieldStore (e : Engine) (f : LocField) (v : String) : Engine :=
  let v2 := if e.disposed then v else interceptChange f v
  { e with
    location := e.location.setF f v2
    notifyCount := e.notifyCount + (if e.location.getF f = v2 then 0 else 1) }

/-- A location descriptor as the JS object `setLocation` receives:
`pathname`, `search` and `hash` are own properties in every descriptor that
reaches it (`parsePath` creates all three and `createLocation`'s object
branch defaults them), while `state` and `key` are own properties only when
present — `createLocation`'s string branch sets `state` (to `undefined`)
but stamps `key` only when one is given (`if (key) location.key = key`).
`none` marks an absent property. -/
structure LocDescriptor where
  pathname : String
  search : String
  hash : String
  stateP : Option (Option Nat)
  keyP : Option (Option Nat)
deriving DecidableEq, Repr

/-- The descriptor of a full location object carrying all five own
properties, as every backend-created location does. -/
def Loc.own (l : Loc) : LocDescriptor :=
  ⟨l.pathname, l.search, l.hash, some l.state, some l.key⟩

/-- Reading the properties of a descriptor object as `locationsAreEqual`
does: an absent property reads `undefined`. -/
def descLoc (d : LocDescriptor) : Loc :=
  ⟨d.pathname, d.search, d.hash, d.stateP.getD none, d.keyP.getD none⟩

/-- The descriptor `createLocation` builds from a string path: `parsePath`
yields the three string fields, `state` is set (to `undefined`) and no key
is stamped. -/
def strLocOwn (path : String) : LocDescriptor :=
  ⟨(createLocationStr path).pathname, (createLocationStr path).search,
    (createLocationStr path).hash, some (createLocationStr path).state, none⟩

/-- `Object.assign(data.location, d)`: every own property of the descriptor
is written (an absent property leaves the stored field alone), `search` and
`hash` through the interceptor; equal values are suppressed by mobx and
only the changed fields notify. -/
def assignLoc (interceptOn : Bool) (cur : Loc) (d : LocDescriptor) : Loc :=
  { pathname := d.pathname
    search := if interceptOn then normalize d.search "?" else d.search
    hash := if interceptOn then normalize d.hash "#" else d.hash
    state := d.stateP.getD cur.state
    key := d.keyP.getD cur.key }

/-- `setLocation` (src/index.ts) on an already-built location descriptor:
drop the update when `locationsAreEqual` (absent properties read
`undefined`), otherwise assign the own properties as one transaction. -/
def setLocationInner (e : Engine) (d : LocDescriptor) : Engine :=
  if locationsAreEqual e.location (descLoc d) then e
  else
    let nl := assignLoc (!e.disposed) e.location d
    { e with location := nl, notifyCount := e.notifyCount + countChanged e.location nl }

/-- The `history.listen` callback: update `data.action` and run
`setLocation` with the full backend location; disposed by `destroy`. -/
def onHistoryEvent (e : Engine) (loc : Loc) (a : NavAction) : Engine :=
  if e.disposed then e
  else
    let e2 := { e with
      action := a
      notifyCount := e.notifyCount + (if e.action = a then 0 else 1) }
    setLocationInner e2 loc.own

/-- The body of `syncSearchParams` when run as the first reaction (argument:
the current `data.location.search`): when the stored search differs from the
normalized canonical string of the current params object, re-store the
search and rebuild `data.searchParams` from it (the rebuild is a reference
change, one notification). -/
def r1Body (e : Engine) (s : String) : Engine :=
  if e.location.search = normalize (engineToString e.searchParams) "?" then e
  else
    let e2 := locFieldStore e .search s
    { e2 with searchParams := parseSearch s, notifyCount := e2.notifyCount + 1 }

/-- The body of the second reaction (argument: the current
`createPath(data.location)`): push the path to the backend when it differs
from the backend current path; the backend synchronously notifies the
listener. -/
def r2Body (e : Engine) (p : String) : Engine :=
  if createPath e.backend.current = p then e
  else
    let r := e.backend.doPush (createLocationStr p)
    onHistoryEvent { e with backend := r.1, pushCount := e.pushCount + 1 } r.2 .push

/-- The mobx batch runner: repeatedly run any reaction whose observed value
differs from its last-seen value, first `syncSearchParams` then the path
reaction, until a fixpoint (or the fuel runs out, modelling an unbounded
reaction cycle).  Disposed reactions never run. -/
def stabilize : Nat → Engine → Option Engine
  | 0, _ => none
  | fuel + 1, e =>
    if e.disposed then some e
    else if e.location.search ≠ e.r1Last then
      stabilize fuel (r1Body
        { e with r1Last := e.location.search, reactionRuns := e.reactionRuns + 1 }
        e.location.search)
    else if createPath e.location ≠ e.r2Last then
      stabilize fuel (r2Body
        { e with r2Last := createPath e.location, reactionRuns := e.reactionRuns + 1 }
        (createPath e.location))
    else some e

/-- `syncSearchParams` called directly by the params proxy `onChange`
(outside any batch): the search write runs its reactions immediately, then
`data.searchParams` is rebuilt. -/
def syncSPDirect (fuel : Nat) (e : Engine) (search : String) : Option Engine :=
  if e.location.search = normalize (engineToString e.searchParams) "?" then some e
  else
    (stabilize fuel (locFieldStore e .search search)).map fun e2 =>
      { e2 with searchParams := parseSearch search, notifyCount := e2.notifyCount + 1 }

/-- Application write `navigation.location.<field> = v`. -/
def appFieldWrite (fuel : Nat) (e : Engine) (f : LocField) (v : String) : Option Engine :=
  stabilize fuel (locFieldStore e f v)

/-- Application call of a `URLSearchParams` method through the proxy of
`createExtendedSearchParams`: the target is mutated in place, the canonical
strings (with the default encoder) before and after are compared, and
`onChange` — `syncSearchParams` — runs only when they differ. -/
def appParamsOp (fuel : Nat) (e : Engine) (op : Params → Params) : Option Engine :=
  if engineToString e.searchParams = engineToString (op e.searchParams) then
    some { e with searchParams := op e.searchParams }
  else
    syncSPDirect fuel { e with searchParams := op e.searchParams }
      (engineToString (op e.searchParams))

/-- Facade setter `navigation.location = v` for a location descriptor. -/
def setLocationFacade (fuel : Nat) (e : Engine) (d : LocDescriptor) : Option Engine :=
  stabilize fuel (setLocationInner e d)

/-- Facade setter `navigation.location = v` for a string path
(`createLocation` is applied first; the parsed object has no `key` own
property). -/
def appSetLocationStr (fuel : Nat) (e : Engine) (path : String) : Option Engine :=
  setLocationFacade fuel e (strLocOwn path)

/-- A partial location descriptor for `merge` (own fields only). -/
structure PartialLoc where
  pathname : Option String
  search : Option String
  hash : Option String
deriving DecidableEq, Repr

/-- The argument of `merge`. -/
inductive MergeArg where
  | str : String → MergeArg
  | obj : PartialLoc → MergeArg

/-- The location `merge` builds (src/index.ts): a string argument is parsed
with `createLocation` and its falsy fields are deleted, then the result is
spread over the current `data.location`; an object argument is spread
directly. -/
def mergeLocation (e : Engine) : MergeArg → Loc
  | .str s =>
    let l := createLocationStr s
    { pathname := if l.pathname = "" then e.location.pathname else l.pathname
      search := if l.search = "" then e.location.search else l.search
      hash := if l.hash = "" then e.location.hash else l.hash
      state := e.location.state
      key := e.location.key }
  | .obj d =>
    { pathname := d.pathname.getD e.location.pathname
      search := d.search.getD e.location.search
      hash := d.hash.getD e.location.hash
      state := e.location.state
      key := e.location.key }

/-- `navigation.merge(arg, replace)`: build the merged location and hand it
directly to the backend (`replace` or `push`), whose event then flows back
through the listener. -/
def appMerge (fuel : Nat) (e : Engine) (arg : MergeArg) (rep : Bool) : Option Engine :=
  if rep then
    stabilize fuel (onHistoryEvent
      { e with backend := (e.backend.doReplace (mergeLocation e arg)).1
               replaceCount := e.replaceCount + 1 }
      (e.backend.doReplace (mergeLocation e arg)).2 NavAction.replace)
  else
    stabilize fuel (onHistoryEvent
      { e with backend := (e.backend.doPush (mergeLocation e arg)).1
               pushCount := e.pushCount + 1 }
      (e.backend.doPush (mergeLocation e arg)).2 NavAction.push)

/-- An external backend navigation (the application calling `history.push`
directly, or the passthrough `navigation.push`). -/
def extPush (fuel : Nat) (e : Engine) (d : Loc) : Option Engine :=
  let r := e.backend.doPush d
  let e2 := onHistoryEvent
    { e with backend := r.1, pushCount := e.pushCount + 1 } r.2 .push
  stabilize fuel e2

/-- `destroy()`: dispose every reaction, interceptor and the listener, and
return the underlying backend (the prototype of the facade). -/
def destroyOp (e : Engine) : Engine × Backend :=
  ({ e with disposed := true }, e.backend)

/-- Facade read of `searchParams`: after `destroy` the own getter is deleted
and the read falls through to the bare backend, which has no such property. -/
def facadeSearchParams (e : Engine) : Option Params :=
  if e.disposed then none else some e.searchParams

/-- Facade read of `location`: after `destroy` the own getter is deleted and
the read returns the plain (non-reactive) backend location. -/
def facadeLocation (e : Engine) : Loc :=
  if e.disposed then e.backend.current else e.location

/-- Engine construction from a backend (`createObservableHistory`): data is
copied from the current entry, the params view is parsed from its search,
and both reactions seed their last-seen values without firing. -/
def Engine.create (b : Backend) : Engine :=
  { backend := b
    action := b.action
    location := b.current
    searchParams := parseSearch b.current.search
    r1Last := b.current.search
    r2Last := createPath b.current
    disposed := false
    pushCount := 0
    replaceCount := 0
    notifyCount := 0
    reactionRuns := 0 }

/-- Strip one leading `?` from a query string. -/
def stripQuery (s : String) : String :=
  match s.toList with
  | '?' :: rest => String.mk rest
  | _ => s

end MobxHistory

namespace MobxHistory

/-! ## Basic engine lemmas -/

theorem Loc.setF_getF (l : Loc) (f : LocField) : l.setF f (l.getF f) = l := by
  cases f <;> rfl

/-- A state whose reactions have both seen the current values is a fixpoint
of the batch runner. -/
theorem stabilize_fixpoint (fuel : Nat) (e : Engine)
    (h1 : e.location.search = e.r1Last)
    (h2 : createPath e.location = e.r2Last) :
    stabilize (fuel + 1) e = some e := by
  unfold stabilize
  simp [h1, h2]

end MobxHistory

/-- C4: a write to the `search` or `hash` field of the observable location
whose normalized value equals the currently stored value is suppressed
entirely at a quiescent state: the engine (store, counters, backend) is
unchanged, so no reaction fires and no backend call is made.  Writing `"?"`
to an already-empty query is the motivating instance. -/
theorem MobxHistory.C4_noop_field_write (fuel : Nat) (e : MobxHistory.Engine)
    (f : MobxHistory.LocField) (v : String)
    (hf : f = MobxHistory.LocField.search ∨ f = MobxHistory.LocField.hash)
    (hd : e.disposed = false)
    (hq1 : e.r1Last = e.location.search)
    (hq2 : e.r2Last = MobxHistory.createPath e.location)
    (hv : MobxHistory.interceptChange f v = e.location.getF f) :
    MobxHistory.appFieldWrite (fuel + 1) e f v = some e := by
  clear hf
  have hstore : MobxHistory.locFieldStore e f v = e := by
    unfold MobxHistory.locFieldStore
    obtain ⟨b, a, l, sp, r1, r2, d, pc, rc, nc, rr⟩ := e
    simp only at hd hv
    subst hd
    simp [hv, MobxHistory.Loc.setF_getF]
  unfold MobxHistory.appFieldWrite
  rw [hstore]
  exact MobxHistory.stabilize_fixpoint fuel e hq1.symm hq2.symm

namespace MobxHistory

/-- A quiescent engine over a one-entry backend at `/` with empty query, as
`createObservableHistory` would build it. -/
def sampleEngine : Engine :=
  Engine.create ⟨[⟨"/", "", "", none, none⟩], 0, 0, .pop⟩

end MobxHistory

/-- Witness for C4: writing `"?"` to the already-empty query of a concrete
quiescent engine changes nothing at all. -/
theorem MobxHistory.C4_noop_field_write_witness :
    MobxHistory.appFieldWrite 1 MobxHistory.sampleEngine
      MobxHistory.LocField.search "?" = some MobxHistory.sampleEngine :=
  MobxHistory.C4_noop_field_write 0 MobxHistory.sampleEngine
    MobxHistory.LocField.search "?" (Or.inl rfl) (by decide) (by decide) (by decide)
    (by decide)

namespace MobxHistory

/-! ## The location-object interceptor of src/unnamed/part_003 (and of the
second `createObservableHistory` variant in src/index.ts)

The observable location object is modelled as its own-field list (name and
string value), fixed when `getLocation` builds it. -/

/-- Own fields of the observable location object. -/
abbrev LocObj := List (String × String)

/-- The intercept callback installed by `getLocation`
(src/unnamed/part_003): a change whose name is not an own property of the
object returns `null` — the change is cancelled; a `search` or `hash`
update is rewritten through `normalize`; any other update passes through. -/
def locObjIntercept (fields : LocObj) (name : String) (newValue : String) :
    Option String :=
  if (fields.map Prod.fst).contains name = false then none
  else if name = "search" then some (normalize newValue "?")
  else if name = "hash" then some (normalize newValue "#")
  else some newValue

/-- Update the value of an existing own field. -/
def locObjSet : LocObj → String → String → LocObj
  | [], _, _ => []
  | (m, w) :: rest, n, v =>
    if m = n then (m, v) :: rest else (m, w) :: locObjSet rest n v

/-- One write applied through mobx and the interceptor: a cancelled change
leaves the object untouched and notifies nobody; an accepted change stores
the (possibly rewritten) value, notifying only when the stored value
differs. -/
def locObjWrite (fields : LocObj) (nv : String × String) : LocObj × Bool :=
  match locObjIntercept fields nv.1 nv.2 with
  | none => (fields, false)
  | some v =>
    (locObjSet fields nv.1 v,
      decide (((fields.find? fun kv => kv.1 = nv.1).map Prod.snd) ≠ some v))

theorem locObjSet_keys (fields : LocObj) (n v : String) :
    (locObjSet fields n v).map Prod.fst = fields.map Prod.fst := by
  induction fields with
  | nil => rfl
  | cons hd tl ih =>
    obtain ⟨m, w⟩ := hd
    unfold locObjSet
    by_cases h : m = n
    · simp [h]
    · simp [h, ih]

theorem locObjWrite_keys (fields : LocObj) (nv : String × String) :
    ((locObjWrite fields nv).1).map Prod.fst = fields.map Prod.fst := by
  unfold locObjWrite
  cases h : locObjIntercept fields nv.1 nv.2 with
  | none => rfl
  | some v => simpa using locObjSet_keys fields nv.1 v

end MobxHistory

/-- C10: a write naming a property that is not an own field of the
observable location object is cancelled by the interceptor — the object is
unchanged and no notification fires — and therefore the field set fixed at
construction is invariant under every sequence of writes. -/
theorem MobxHistory.C10_no_new_props :
    (∀ (fields : MobxHistory.LocObj) (name v : String),
        (fields.map Prod.fst).contains name = false →
        MobxHistory.locObjWrite fields (name, v) = (fields, false))
    ∧ (∀ (fields : MobxHistory.LocObj) (writes : List (String × String)),
        ((writes.foldl (fun acc nv => (MobxHistory.locObjWrite acc nv).1)
            fields).map Prod.fst) = fields.map Prod.fst) := by
  constructor
  · intro fields name v h
    unfold MobxHistory.locObjWrite MobxHistory.locObjIntercept
    rw [h]
    simp
  · intro fields writes
    induction writes generalizing fields with
    | nil => rfl
    | cons hd tl ih =>
      simpa [List.foldl_cons, MobxHistory.locObjWrite_keys] using
        (ih ((MobxHistory.locObjWrite fields hd).1)).trans
          (MobxHistory.locObjWrite_keys fields hd)

/-- Witness for C10: a write of the unknown property `foo` on the concrete
location object is rejected, and a mixed write sequence leaves the field
set `[pathname, search, hash, state, key]` intact. -/
theorem MobxHistory.C10_no_new_props_witness :
    MobxHistory.locObjWrite
        [("pathname", "/"), ("search", ""), ("hash", ""), ("state", ""), ("key", "")]
        ("foo", "x")
      = ([("pathname", "/"), ("search", ""), ("hash", ""), ("state", ""), ("key", "")],
          false)
    ∧ (([("foo", "1"), ("search", "x=1"), ("bar", "2")].foldl
          (fun acc nv => (MobxHistory.locObjWrite acc nv).1)
          [("pathname", "/"), ("search", ""), ("hash", ""), ("state", ""), ("key", "")]).map
            Prod.fst)
        = ["pathname", "search", "hash", "state", "key"] :=
  ⟨MobxHistory.C10_no_new_props.1
      [("pathname", "/"), ("search", ""), ("hash", ""), ("state", ""), ("key", "")]
      "foo" "x" (by decide),
    (MobxHistory.C10_no_new_props.2
      [("pathname", "/"), ("search", ""), ("hash", ""), ("state", ""), ("key", "")]
      [("foo", "1"), ("search", "x=1"), ("bar", "2")]).trans (by decide)⟩

namespace MobxHistory

/-! ## Well-formed locations and the path round-trip

A location held by the engine in ordinary operation has a non-empty,
decode-stable pathname free of `?` and `#`, and normalized (trim-stable,
prefixed, non-bare) search and hash chunks.  For such locations
`createPath` and `parsePath` are mutually inverse, which is what the
engine relies on when its own push comes back through the listener. -/

structure GoodLoc (l : Loc) : Prop where
  pn_ne : l.pathname ≠ ""
  pn_noq : '?' ∉ l.pathname.data
  pn_noh : '#' ∉ l.pathname.data
  pn_dec : decodeURIStr l.pathname = l.pathname
  s_ok : l.search = "" ∨ (l.search.data.head? = some '?' ∧ l.search ≠ "?" ∧
    '#' ∉ l.search.data ∧ jsTrim l.search = l.search)
  h_ok : l.hash = "" ∨ (l.hash.data.head? = some '#' ∧ l.hash ≠ "#" ∧
    jsTrim l.hash = l.hash)

theorem breakAtFirst_nil (c : Char) : breakAtFirst c [] = ([], []) := rfl

theorem breakAtFirst_cons_self (c : Char) (xs : List Char) :
    breakAtFirst c (c :: xs) = ([], c :: xs) := by
  simp [breakAtFirst]

theorem breakAtFirst_append (c : Char) (xs ys : List Char) (h : c ∉ xs) :
    breakAtFirst c (xs ++ ys) =
      (xs ++ (breakAtFirst c ys).1, (breakAtFirst c ys).2) := by
  induction xs with
  | nil => simp [breakAtFirst]
  | cons x xt ih =>
    have hx : x ≠ c := fun hc => h (hc ▸ List.mem_cons_self x xt)
    have ht : c ∉ xt := fun hc => h (List.mem_cons_of_mem x hc)
    simp [breakAtFirst, hx, ih ht]

/-- For a well-formed location `createPath` is plain concatenation. -/
theorem createPath_data (l : Loc) (h : GoodLoc l) :
    (createPath l).data = l.pathname.data ++ l.search.data ++ l.hash.data := by
  unfold createPath
  rcases h.s_ok with hs | hs <;> rcases h.h_ok with hh | hh
  · simp [h.pn_ne, hs, hh]
  · have hh1 : l.hash ≠ "" := by
      intro hc
      rw [hc] at hh
      simp at hh
    simp [h.pn_ne, hs, hh1, hh.2.1, hh.1, String.data_append]
  · have hs1 : l.search ≠ "" := by
      intro hc
      rw [hc] at hs
      simp at hs
    simp [h.pn_ne, hs1, hs.2.1, hs.1, hh, String.data_append]
  · have hs1 : l.search ≠ "" := by
      intro hc
      rw [hc] at hs
      simp at hs
    have hh1 : l.hash ≠ "" := by
      intro hc
      rw [hc] at hh
      simp at hh
    simp [h.pn_ne, hs1, hs.2.1, hs.1, hh1, hh.2.1, hh.1, String.data_append]

/-- Round-trip: parsing the created path of a well-formed location recovers
its three string fields. -/
theorem parsePath_createPath (l : Loc) (h : GoodLoc l) :
    parsePath (createPath l) = ⟨l.pathname, l.search, l.hash, none, none⟩ := by
  have hdata := createPath_data l h
  have hne : createPath l ≠ "" := by
    intro hc
    have hx : (createPath l).data = [] := by rw [hc]
    rw [hdata] at hx
    have hy : l.pathname.data = [] := (List.append_eq_nil.mp (List.append_eq_nil.mp hx).1).1
    exact h.pn_ne (String.ext hy)
  have hsh : '#' ∉ l.search.data := by
    rcases h.s_ok with hs | hs
    · rw [hs]; simp
    · exact hs.2.2.1
  have hbf1 : breakAtFirst '#' ((createPath l).data) =
      (l.pathname.data ++ l.search.data, l.hash.data) := by
    rw [hdata, List.append_assoc,
      breakAtFirst_append '#' l.pathname.data _ h.pn_noh,
      breakAtFirst_append '#' l.search.data _ hsh]
    rcases h.h_ok with hh | hh
    · rw [hh]
      simp [breakAtFirst_nil]
    · rcases hl : l.hash.data with _ | ⟨c, t⟩
      · simp [breakAtFirst_nil]
      · have hc2 : c = '#' := by
          have h3 := hh.1
          rw [hl] at h3
          simp at h3
          exact h3
        subst hc2
        rw [breakAtFirst_cons_self]
        simp
  have hsq : '?' ∉ l.pathname.data := h.pn_noq
  have hbf2 : breakAtFirst '?' (l.pathname.data ++ l.search.data) =
      (l.pathname.data, l.search.data) := by
    rw [breakAtFirst_append '?' l.pathname.data _ hsq]
    rcases h.s_ok with hs | hs
    · rw [hs]
      simp [breakAtFirst_nil]
    · rcases hl : l.search.data with _ | ⟨c, t⟩
      · simp [breakAtFirst_nil]
      · have hc2 : c = '?' := by
          have h3 := hs.1
          rw [hl] at h3
          simp at h3
          exact h3
        subst hc2
        rw [breakAtFirst_cons_self]
        simp
  have hs2 : l.search ≠ "?" := by
    rcases h.s_ok with hs | hs
    · rw [hs]; decide
    · exact hs.2.1
  have hh2 : l.hash ≠ "#" := by
    rcases h.h_ok with hh | hh
    · rw [hh]; decide
    · exact hh.2.1
  unfold parsePath
  rw [if_neg hne]
  show (let h0 := breakAtFirst '#' (createPath l).data
        let hash := String.mk h0.2
        let q := breakAtFirst '?' h0.1
        let search := String.mk q.2
        ({ pathname := String.mk q.1
           search := if search = "?" then "" else search
           hash := if hash = "#" then "" else hash
           state := none
           key := none } : Loc)) = _
  rw [hbf1]
  show (let hash := String.mk l.hash.data
        let q := breakAtFirst '?' (l.pathname.data ++ l.search.data)
        let search := String.mk q.2
        ({ pathname := String.mk q.1
           search := if search = "?" then "" else search
           hash := if hash = "#" then "" else hash
           state := none
           key := none } : Loc)) = _
  rw [hbf2]
  show ({ pathname := String.mk l.pathname.data
          search := if String.mk l.search.data = "?" then "" else String.mk l.search.data
          hash := if String.mk l.hash.data = "#" then "" else String.mk l.hash.data
          state := none
          key := none } : Loc) = _
  have e1 : String.mk l.pathname.data = l.pathname := rfl
  have e2 : String.mk l.search.data = l.search := rfl
  have e3 : String.mk l.hash.data = l.hash := rfl
  rw [e1, e2, e3, if_neg hs2, if_neg hh2]

end MobxHistory

namespace MobxHistory

/-- Two well-formed locations with the same created path agree on all three
string fields. -/
theorem createPath_inj (l1 l2 : Loc) (h1 : GoodLoc l1) (h2 : GoodLoc l2)
    (heq : createPath l1 = createPath l2) :
    l1.pathname = l2.pathname ∧ l1.search = l2.search ∧ l1.hash = l2.hash := by
  have h3 := congrArg parsePath heq
  rw [parsePath_createPath l1 h1, parsePath_createPath l2 h2] at h3
  simp only [Loc.mk.injEq] at h3
  exact ⟨h3.1, h3.2.1, h3.2.2.1⟩

/-- `createPath` only reads the three string fields. -/
theorem createPath_state_key (l : Loc) (st k : Option Nat) :
    createPath { l with state := st, key := k } = createPath l := rfl

/-- `normalize` keeps a well-formed search chunk. -/
theorem normalize_search_good (l : Loc) (h : GoodLoc l) :
    normalize l.search "?" = l.search := by
  rcases h.s_ok with hs | hs
  · rw [hs]
    decide
  · have ht : jsTrim l.search = l.search := hs.2.2.2
    have hpre : ("?" : String).toList.isPrefixOf (jsTrim l.search).toList := by
      rw [ht]
      show ['?'].isPrefixOf l.search.data
      rcases hl : l.search.data with _ | ⟨c, t⟩
      · have h3 := hs.1
        rw [hl] at h3
        simp at h3
      · have h3 := hs.1
        rw [hl] at h3
        simp at h3
        subst h3
        simp [List.isPrefixOf]
    have hne : jsTrim l.search ≠ "" := by
      rw [ht]
      intro hc
      have h3 := hs.1
      rw [hc] at h3
      simp at h3
    have hnq : jsTrim l.search ≠ "?" := by
      rw [ht]
      exact hs.2.1
    have := (C3_normalize_cases l.search "?" (Or.inl rfl)).2.1 hne hnq hpre
    rw [this, ht]

/-- `normalize` keeps a well-formed hash chunk. -/
theorem normalize_hash_good (l : Loc) (h : GoodLoc l) :
    normalize l.hash "#" = l.hash := by
  rcases h.h_ok with hh | hh
  · rw [hh]
    decide
  · have ht : jsTrim l.hash = l.hash := hh.2.2
    have hpre : ("#" : String).toList.isPrefixOf (jsTrim l.hash).toList := by
      rw [ht]
      show ['#'].isPrefixOf l.hash.data
      rcases hl : l.hash.data with _ | ⟨c, t⟩
      · have h3 := hh.1
        rw [hl] at h3
        simp at h3
      · have h3 := hh.1
        rw [hl] at h3
        simp at h3
        subst h3
        simp [List.isPrefixOf]
    have hne : jsTrim l.hash ≠ "" := by
      rw [ht]
      intro hc
      have h3 := hh.1
      rw [hc] at h3
      simp at h3
    have hnq : jsTrim l.hash ≠ "#" := by
      rw [ht]
      exact hh.2.1
    have := (C3_normalize_cases l.hash "#" (Or.inr rfl)).2.1 hne hnq hpre
    rw [this, ht]

/-- Reading back the full descriptor of a location gives the location. -/
theorem descLoc_own (l : Loc) : descLoc l.own = l := rfl

/-- The descriptor parsed from a string reads back with `undefined` state
and no key. -/
theorem descLoc_str (p : String) :
    descLoc (strLocOwn p)
      = ⟨(createLocationStr p).pathname, (createLocationStr p).search,
          (createLocationStr p).hash, none, none⟩ := rfl

/-- The interceptor keeps every field of a well-formed location, so an
`Object.assign` of its full descriptor stores it unchanged. -/
theorem assignLoc_good (cur l : Loc) (h : GoodLoc l) (st k : Option Nat) :
    assignLoc true cur (Loc.own { l with state := st, key := k })
      = { l with state := st, key := k } := by
  show (⟨l.pathname, normalize l.search "?", normalize l.hash "#", st, k⟩ : Loc)
      = { l with state := st, key := k }
  rw [normalize_search_good l h, normalize_hash_good l h]

/-- The assignment with an active interceptor, written out. -/
theorem assignLoc_true (cur : Loc) (d : LocDescriptor) :
    assignLoc true cur d = ⟨d.pathname, normalize d.search "?", normalize d.hash "#",
      d.stateP.getD cur.state, d.keyP.getD cur.key⟩ := rfl

/-- `Object.assign` of a string-parsed descriptor with well-formed fields:
the stored `key` is kept (the descriptor has no `key` own property) and
`state` is overwritten with `undefined`. -/
theorem assignLoc_str (cur : Loc) (p : String) (h : GoodLoc (createLocationStr p)) :
    assignLoc true cur (strLocOwn p)
      = { createLocationStr p with state := none, key := cur.key } := by
  rw [assignLoc_true]
  show (⟨(createLocationStr p).pathname, normalize (createLocationStr p).search "?",
      normalize (createLocationStr p).hash "#", none, cur.key⟩ : Loc)
    = { createLocationStr p with state := none, key := cur.key }
  rw [normalize_search_good _ h, normalize_hash_good _ h]

/-- `createLocation` on the created path of a well-formed location recovers
its three string fields (string branch: parse, decode, default). -/
theorem createLocationStr_createPath (l : Loc) (h : GoodLoc l) :
    createLocationStr (createPath l) = ⟨l.pathname, l.search, l.hash, none, none⟩ := by
  unfold createLocationStr
  rw [parsePath_createPath l h]
  simp [h.pn_dec, h.pn_ne]

/-- `createLocation` on a well-formed location descriptor with no state and
no key is the identity (object branch: prefixes present, pathname decode
stable and non-empty). -/
theorem createLocationObj_good (l : Loc) (h : GoodLoc l) (cur : Loc) :
    createLocationObj ⟨l.pathname, l.search, l.hash, none, none⟩ cur
      = ⟨l.pathname, l.search, l.hash, none, none⟩ := by
  unfold createLocationObj
  have hsearch : (if l.search = "" then ""
      else if l.search.toList.head? = some '?' then l.search else "?" ++ l.search) = l.search := by
    rcases h.s_ok with hs | hs
    · rw [hs]
      simp
    · have hne : l.search ≠ "" := by
        intro hc
        have h3 := hs.1
        rw [hc] at h3
        simp at h3
      rw [if_neg hne, if_pos (show l.search.toList.head? = some '?' from hs.1)]
  have hhash : (if l.hash = "" then ""
      else if l.hash.toList.head? = some '#' then l.hash else "#" ++ l.hash) = l.hash := by
    rcases h.h_ok with hh | hh
    · rw [hh]
      simp
    · have hne : l.hash ≠ "" := by
        intro hc
        have h3 := hh.1
        rw [hc] at h3
        simp at h3
      rw [if_neg hne, if_pos (show l.hash.toList.head? = some '#' from hh.1)]
  simp only
  rw [hsearch, hhash]
  simp [h.pn_dec, h.pn_ne]

end MobxHistory

namespace MobxHistory

/-- A location differing in `key` is never `locationsAreEqual`. -/
theorem locationsAreEqual_false_of_key (a b : Loc) (h : a.key ≠ b.key) :
    locationsAreEqual a b = false := by
  unfold locationsAreEqual
  simp only [decide_eq_false_iff_not]
  intro hc
  exact h hc.2.2.2.1

/-- The entry the backend stores when the engine pushes the composite
location: its three string fields with no state and the fresh key. -/
def pushedLoc (e : Engine) (nl : Loc) : Loc :=
  { nl with state := none, key := some e.backend.nextKey }

/-- The backend after that push. -/
def pushedBackend (e : Engine) (nl : Loc) : Backend :=
  ⟨e.backend.entries.take (e.backend.index + 1) ++ [pushedLoc e nl],
    e.backend.index + 1, e.backend.nextKey + 1, NavAction.push⟩

/-- Running the path reaction from a state whose composite path moved away
from the backend: exactly one backend push, whose event comes straight back
through the listener and is absorbed — the assignment only refreshes
`state` and `key`, every observed value is unchanged. -/
theorem r2Body_spec (e : Engine) (hd : e.disposed = false) (hg : GoodLoc e.location)
    (hne : createPath e.backend.current ≠ createPath e.location)
    (hkey : e.location.key ≠ some e.backend.nextKey) :
    r2Body e (createPath e.location) = { e with
      backend := pushedBackend e e.location
      action := NavAction.push
      location := pushedLoc e e.location
      pushCount := e.pushCount + 1
      notifyCount := e.notifyCount + (if e.action = NavAction.push then 0 else 1)
        + countChanged e.location (pushedLoc e e.location) } := by
  unfold r2Body
  rw [if_neg hne]
  unfold Backend.doPush
  rw [createLocationStr_createPath e.location hg, createLocationObj_good e.location hg]
  unfold onHistoryEvent setLocationInner
  have hloc : ({ (⟨e.location.pathname, e.location.search, e.location.hash, none, none⟩ : Loc)
      with key := some e.backend.nextKey } : Loc) = pushedLoc e e.location := rfl
  have heqf : locationsAreEqual e.location (pushedLoc e e.location) = false :=
    locationsAreEqual_false_of_key _ _ (by
      show e.location.key ≠ some e.backend.nextKey
      exact hkey)
  have hassign : ∀ cur : Loc, assignLoc true cur (Loc.own (pushedLoc e e.location))
      = pushedLoc e e.location := fun cur =>
    assignLoc_good cur e.location hg none (some e.backend.nextKey)
  simp only [hloc, hd, Bool.false_eq_true, if_false, descLoc_own, heqf, Bool.not_false, if_true,
    hassign, Bool.false_eq_true]
  rfl

end MobxHistory

namespace MobxHistory

/-- Batch step: the search reaction runs first when its observed value
moved. -/
theorem stabilize_succ_r1 (fuel : Nat) (e : Engine)
    (hd : e.disposed = false)
    (h1 : e.location.search ≠ e.r1Last) :
    stabilize (fuel + 1) e = stabilize fuel
      (r1Body { e with r1Last := e.location.search, reactionRuns := e.reactionRuns + 1 }
        e.location.search) := by
  conv_lhs => rw [stabilize]
  simp [hd, h1]

/-- Batch step: the path reaction runs when only its observed value moved. -/
theorem stabilize_succ_r2 (fuel : Nat) (e : Engine)
    (hd : e.disposed = false)
    (h1 : e.location.search = e.r1Last)
    (h2 : createPath e.location ≠ e.r2Last) :
    stabilize (fuel + 1) e = stabilize fuel
      (r2Body { e with r2Last := createPath e.location, reactionRuns := e.reactionRuns + 1 }
        (createPath e.location)) := by
  conv_lhs => rw [stabilize]
  simp [hd, h1, h2]

/-- `syncSearchParams` run as a reaction on an unchanged-canonical state:
the re-store of the current search is value-equal (suppressed) and only the
params object is rebuilt. -/
theorem r1Body_spec (e : Engine)
    (hcond : e.location.search ≠ normalize (engineToString e.searchParams) "?")
    (hd : e.disposed = false)
    (hstable : normalize e.location.search "?" = e.location.search) :
    r1Body e e.location.search = { e with
      searchParams := parseSearch e.location.search
      notifyCount := e.notifyCount + 1 } := by
  unfold r1Body
  rw [if_neg hcond]
  unfold locFieldStore
  obtain ⟨b, a, l, sp, r1, r2, d, pc, rc, nc, rr⟩ := e
  simp only at hstable hd
  subst hd
  simp only [interceptChange]
  show ({ backend := b, action := a, location := Loc.setF l LocField.search (normalize l.search "?")
          searchParams := parseSearch l.search
          r1Last := r1, r2Last := r2, disposed := false, pushCount := pc, replaceCount := rc
          notifyCount := nc + (if l.getF LocField.search = normalize l.search "?" then 0 else 1) + 1
          reactionRuns := rr } : Engine) = _
  rw [hstable]
  have hg : l.getF LocField.search = l.search := rfl
  rw [hg, if_pos rfl]
  have hsf : l.setF LocField.search l.search = l := Loc.setF_getF l LocField.search
  rw [hsf]

/-- The case where `syncSearchParams` finds the canonical values already in
agreement: nothing happens. -/
theorem r1Body_noop (e : Engine)
    (hcond : e.location.search = normalize (engineToString e.searchParams) "?") (s : String) :
    r1Body e s = e := by
  unfold r1Body
  rw [if_pos hcond]

end MobxHistory

namespace MobxHistory

/-- A quiescent, well-formed engine state: nothing pending (both reactions
have seen the current values), composite and backend agree on the path, the
params view canonicalizes to the stored search, the stored key predates the
backend counter, and the location is well-formed. -/
structure Quiescent (e : Engine) : Prop where
  not_disposed : e.disposed = false
  r1 : e.r1Last = e.location.search
  r2 : e.r2Last = createPath e.location
  synced : createPath e.location = createPath e.backend.current
  view : e.location.search = normalize (engineToString e.searchParams) "?"
  key_fresh : e.location.key ≠ some e.backend.nextKey
  idx_lt : e.backend.index < e.backend.entries.length
  good : GoodLoc e.location

/-- `GoodLoc` only reads the string fields. -/
theorem goodLoc_state_key (l : Loc) (h : GoodLoc l) (st k : Option Nat) :
    GoodLoc { l with state := st, key := k } :=
  ⟨h.pn_ne, h.pn_noq, h.pn_noh, h.pn_dec, h.s_ok, h.h_ok⟩

/-- `setF` never touches `key`. -/
theorem Loc.setF_key (l : Loc) (f : LocField) (v : String) : (l.setF f v).key = l.key := by
  cases f <;> rfl

/-- `setF` of `pathname` or `hash` never touches `search`. -/
theorem Loc.setF_search_other (l : Loc) (f : LocField) (v : String)
    (hf : f = LocField.pathname ∨ f = LocField.hash) :
    (l.setF f v).search = l.search := by
  rcases hf with rfl | rfl <;> rfl

/-- The current entry of a pushed backend is the pushed location. -/
theorem pushedBackend_current (e : Engine) (nl : Loc)
    (h : e.backend.index < e.backend.entries.length) :
    (pushedBackend e nl).current = pushedLoc e nl := by
  unfold pushedBackend Backend.current
  have hlen : (e.backend.entries.take (e.backend.index + 1)).length = e.backend.index + 1 := by
    rw [List.length_take]
    omega
  simp only
  rw [List.getD_eq_getElem?_getD, List.getElem?_append_right (by omega), hlen]
  simp

end MobxHistory


namespace MobxHistory

/-- Stabilization of a state where only the path reaction is pending and the
composite path moved away from the backend: one push, absorbed re-entry,
fixpoint. -/
theorem stabilize_r2_push (fuel : Nat) (e : Engine)
    (hd : e.disposed = false)
    (h1 : e.location.search = e.r1Last)
    (h2 : createPath e.location ≠ e.r2Last)
    (hg : GoodLoc e.location)
    (hne : createPath e.backend.current ≠ createPath e.location)
    (hkey : e.location.key ≠ some e.backend.nextKey) :
    stabilize (fuel + 2) e = some
      { e with
        backend := ⟨e.backend.entries.take (e.backend.index + 1) ++
            [{ e.location with state := none, key := some e.backend.nextKey }],
          e.backend.index + 1, e.backend.nextKey + 1, NavAction.push⟩
        action := NavAction.push
        location := { e.location with state := none, key := some e.backend.nextKey }
        r2Last := createPath e.location
        pushCount := e.pushCount + 1
        notifyCount := e.notifyCount + (if e.action = NavAction.push then 0 else 1)
          + countChanged e.location { e.location with state := none, key := some e.backend.nextKey }
        reactionRuns := e.reactionRuns + 1 } := by
  rw [show fuel + 2 = (fuel + 1) + 1 from rfl]
  rw [stabilize_succ_r2 (fuel + 1) e hd h1 h2]
  rw [r2Body_spec
    { e with r2Last := createPath e.location, reactionRuns := e.reactionRuns + 1 }
    hd hg hne hkey]
  exact stabilize_fixpoint fuel _ h1
    (createPath_state_key e.location none (some e.backend.nextKey))

/-- Stabilization of a state where the search reaction is pending on an
already-normalized search value that moved away from both the params view
and the backend: the view is rebuilt, then one push, absorbed re-entry,
fixpoint. -/
theorem stabilize_r1_r2_push (fuel : Nat) (e : Engine)
    (hd : e.disposed = false)
    (h1 : e.location.search ≠ e.r1Last)
    (hcond : e.location.search ≠ normalize (engineToString e.searchParams) "?")
    (hstable : normalize e.location.search "?" = e.location.search)
    (hg : GoodLoc e.location)
    (hne : createPath e.backend.current ≠ createPath e.location)
    (h2 : createPath e.location ≠ e.r2Last)
    (hkey : e.location.key ≠ some e.backend.nextKey) :
    stabilize (fuel + 3) e = some
      { e with
        backend := ⟨e.backend.entries.take (e.backend.index + 1) ++
            [{ e.location with state := none, key := some e.backend.nextKey }],
          e.backend.index + 1, e.backend.nextKey + 1, NavAction.push⟩
        action := NavAction.push
        location := { e.location with state := none, key := some e.backend.nextKey }
        searchParams := parseSearch e.location.search
        r1Last := e.location.search
        r2Last := createPath e.location
        pushCount := e.pushCount + 1
        notifyCount := e.notifyCount + 1 + (if e.action = NavAction.push then 0 else 1)
          + countChanged e.location { e.location with state := none, key := some e.backend.nextKey }
        reactionRuns := e.reactionRuns + 1 + 1 } := by
  rw [show fuel + 3 = (fuel + 2) + 1 from rfl]
  rw [stabilize_succ_r1 (fuel + 2) e hd h1]
  rw [r1Body_spec
    { e with r1Last := e.location.search, reactionRuns := e.reactionRuns + 1 }
    hcond hd hstable]
  exact stabilize_r2_push fuel
    { e with r1Last := e.location.search, reactionRuns := e.reactionRuns + 1
             searchParams := parseSearch e.location.search
             notifyCount := e.notifyCount + 1 }
    hd rfl h2 hg hne hkey

end MobxHistory

namespace MobxHistory

/-- A changed `pathname` or `hash` write from a quiescent state: one store
notification, one path-reaction run, exactly one backend push whose event
is absorbed, and the engine is quiescent again. -/
theorem appFieldWrite_other_spec (fuel : Nat) (e : Engine) (f : LocField) (v : String)
    (hq : Quiescent e)
    (hf : f = LocField.pathname ∨ f = LocField.hash)
    (hg2 : GoodLoc (e.location.setF f (interceptChange f v)))
    (hch : interceptChange f v ≠ e.location.getF f) :
    appFieldWrite (fuel + 2) e f v = some
      { e with
        backend := ⟨e.backend.entries.take (e.backend.index + 1) ++
            [{ e.location.setF f (interceptChange f v) with
                state := none, key := some e.backend.nextKey }],
          e.backend.index + 1, e.backend.nextKey + 1, NavAction.push⟩
        action := NavAction.push
        location := { e.location.setF f (interceptChange f v) with
          state := none, key := some e.backend.nextKey }
        r2Last := createPath (e.location.setF f (interceptChange f v))
        pushCount := e.pushCount + 1
        notifyCount := e.notifyCount + 1 + (if e.action = NavAction.push then 0 else 1)
          + countChanged (e.location.setF f (interceptChange f v))
              { e.location.setF f (interceptChange f v) with
                state := none, key := some e.backend.nextKey }
        reactionRuns := e.reactionRuns + 1 } := by
  have hsearch : (e.location.setF f (interceptChange f v)).search = e.location.search :=
    Loc.setF_search_other e.location f (interceptChange f v) hf
  have hkeyf : (e.location.setF f (interceptChange f v)).key = e.location.key :=
    Loc.setF_key e.location f (interceptChange f v)
  have hpathne : createPath (e.location.setF f (interceptChange f v))
      ≠ createPath e.location := by
    intro heq
    obtain ⟨hp1, hp2, hp3⟩ :=
      createPath_inj (e.location.setF f (interceptChange f v)) e.location hg2 hq.good heq
    rcases hf with rfl | rfl
    · exact hch hp1
    · exact hch hp3
  have hst : locFieldStore e f v =
      { e with location := e.location.setF f (interceptChange f v)
               notifyCount := e.notifyCount + 1 } := by
    unfold locFieldStore
    rw [hq.not_disposed]
    simp only [Bool.false_eq_true, if_false, if_neg (Ne.symm hch)]
  unfold appFieldWrite
  rw [hst]
  exact stabilize_r2_push fuel
    { e with location := e.location.setF f (interceptChange f v)
             notifyCount := e.notifyCount + 1 }
    hq.not_disposed
    (hsearch.trans hq.r1.symm)
    (fun hc => hpathne (hc.trans hq.r2))
    hg2
    (fun hc => hpathne (hq.synced.trans hc).symm)
    (fun hc => hq.key_fresh (hkeyf.symm.trans hc))

/-- A changed `search` write from a quiescent state: one store notification,
the search reaction rebuilds the params view and suppresses its own
re-store, the path reaction issues exactly one backend push whose event is
absorbed, and the engine is quiescent again. -/
theorem appFieldWrite_search_spec (fuel : Nat) (e : Engine) (v : String)
    (hq : Quiescent e)
    (hg2 : GoodLoc (e.location.setF LocField.search (interceptChange LocField.search v)))
    (hch : interceptChange LocField.search v ≠ e.location.getF LocField.search) :
    appFieldWrite (fuel + 3) e LocField.search v = some
      { e with
        backend := ⟨e.backend.entries.take (e.backend.index + 1) ++
            [{ e.location.setF LocField.search (interceptChange LocField.search v) with
                state := none, key := some e.backend.nextKey }],
          e.backend.index + 1, e.backend.nextKey + 1, NavAction.push⟩
        action := NavAction.push
        location := { e.location.setF LocField.search (interceptChange LocField.search v) with
          state := none, key := some e.backend.nextKey }
        searchParams := parseSearch (interceptChange LocField.search v)
        r1Last := interceptChange LocField.search v
        r2Last := createPath (e.location.setF LocField.search (interceptChange LocField.search v))
        pushCount := e.pushCount + 1
        notifyCount := e.notifyCount + 1 + 1 + (if e.action = NavAction.push then 0 else 1)
          + countChanged (e.location.setF LocField.search (interceptChange LocField.search v))
              { e.location.setF LocField.search (interceptChange LocField.search v) with
                state := none, key := some e.backend.nextKey }
        reactionRuns := e.reactionRuns + 1 + 1 } := by
  have hkeyf : (e.location.setF LocField.search (interceptChange LocField.search v)).key
      = e.location.key :=
    Loc.setF_key e.location LocField.search (interceptChange LocField.search v)
  have hpathne : createPath
        (e.location.setF LocField.search (interceptChange LocField.search v))
      ≠ createPath e.location := by
    intro heq
    obtain ⟨hp1, hp2, hp3⟩ := createPath_inj
      (e.location.setF LocField.search (interceptChange LocField.search v))
      e.location hg2 hq.good heq
    exact hch hp2
  have hst : locFieldStore e LocField.search v =
      { e with
        location := e.location.setF LocField.search (interceptChange LocField.search v)
        notifyCount := e.notifyCount + 1 } := by
    unfold locFieldStore
    rw [hq.not_disposed]
    simp only [Bool.false_eq_true, if_false, if_neg (Ne.symm hch)]
  unfold appFieldWrite
  rw [hst]
  exact stabilize_r1_r2_push fuel
    { e with
      location := e.location.setF LocField.search (interceptChange LocField.search v)
      notifyCount := e.notifyCount + 1 }
    hq.not_disposed
    (fun hc => hch (hc.trans hq.r1))
    (fun hc => hch (hc.trans hq.view.symm))
    (normalize_search_good _ hg2)
    hg2
    (fun hc => hpathne (hq.synced.trans hc).symm)
    (fun hc => hpathne (hc.trans hq.r2))
    (fun hc => hq.key_fresh (hkeyf.symm.trans hc))

end MobxHistory

namespace MobxHistory

/-- `createLocation` keeps a location whose string fields are well-formed
(object branch), regardless of state and key. -/
theorem createLocationObj_good2 (l : Loc) (h : GoodLoc l) (cur : Loc) :
    createLocationObj l cur = l := by
  unfold createLocationObj
  have hsearch : (if l.search = "" then ""
      else if l.search.toList.head? = some '?' then l.search else "?" ++ l.search)
      = l.search := by
    rcases h.s_ok with hs | hs
    · rw [hs]
      simp
    · have hne : l.search ≠ "" := by
        intro hc
        have h3 := hs.1
        rw [hc] at h3
        simp at h3
      rw [if_neg hne, if_pos (show l.search.toList.head? = some '?' from hs.1)]
  have hhash : (if l.hash = "" then ""
      else if l.hash.toList.head? = some '#' then l.hash else "#" ++ l.hash)
      = l.hash := by
    rcases h.h_ok with hh | hh
    · rw [hh]
      simp
    · have hne : l.hash ≠ "" := by
        intro hc
        have h3 := hh.1
        rw [hc] at h3
        simp at h3
      rw [if_neg hne, if_pos (show l.hash.toList.head? = some '#' from hh.1)]
  simp only
  rw [hsearch, hhash, h.pn_dec, if_neg h.pn_ne]

/-- The interceptor keeps every field of a well-formed location, so the
assignment of its full descriptor stores it unchanged. -/
theorem assignLoc_good2 (cur l : Loc) (h : GoodLoc l) : assignLoc true cur l.own = l := by
  show (⟨l.pathname, normalize l.search "?", normalize l.hash "#", l.state, l.key⟩ : Loc) = l
  rw [normalize_search_good l h, normalize_hash_good l h]

/-- The path reaction does nothing when the backend already holds the
path. -/
theorem r2Body_nopush (e : Engine) (p : String)
    (h : createPath e.backend.current = p) : r2Body e p = e := by
  unfold r2Body
  rw [if_pos h]

/-- Stabilization where the search reaction is pending but finds the params
view already canonical (a view-originated write): it is suppressed, then
the path reaction issues one push, absorbed on re-entry. -/
theorem stabilize_r1noop_r2_push (fuel : Nat) (e : Engine)
    (hd : e.disposed = false)
    (h1 : e.location.search ≠ e.r1Last)
    (hcond : e.location.search = normalize (engineToString e.searchParams) "?")
    (hg : GoodLoc e.location)
    (hne : createPath e.backend.current ≠ createPath e.location)
    (h2 : createPath e.location ≠ e.r2Last)
    (hkey : e.location.key ≠ some e.backend.nextKey) :
    stabilize (fuel + 3) e = some
      { e with
        backend := ⟨e.backend.entries.take (e.backend.index + 1) ++
            [{ e.location with state := none, key := some e.backend.nextKey }],
          e.backend.index + 1, e.backend.nextKey + 1, NavAction.push⟩
        action := NavAction.push
        location := { e.location with state := none, key := some e.backend.nextKey }
        r1Last := e.location.search
        r2Last := createPath e.location
        pushCount := e.pushCount + 1
        notifyCount := e.notifyCount + (if e.action = NavAction.push then 0 else 1)
          + countChanged e.location { e.location with state := none, key := some e.backend.nextKey }
        reactionRuns := e.reactionRuns + 1 + 1 } := by
  rw [show fuel + 3 = (fuel + 2) + 1 from rfl]
  rw [stabilize_succ_r1 (fuel + 2) e hd h1]
  rw [r1Body_noop
    { e with r1Last := e.location.search, reactionRuns := e.reactionRuns + 1 } hcond]
  exact stabilize_r2_push fuel
    { e with r1Last := e.location.search, reactionRuns := e.reactionRuns + 1 }
    hd rfl h2 hg hne hkey

/-- Stabilization of a state where only the path reaction is pending but the
backend already holds the path: the run is a no-op. -/
theorem stabilize_r2nopush_fix (fuel : Nat) (e : Engine)
    (hd : e.disposed = false)
    (h1 : e.location.search = e.r1Last)
    (h2 : createPath e.location ≠ e.r2Last)
    (hsync : createPath e.backend.current = createPath e.location) :
    stabilize (fuel + 2) e = some
      { e with r2Last := createPath e.location
               reactionRuns := e.reactionRuns + 1 } := by
  rw [show fuel + 2 = (fuel + 1) + 1 from rfl]
  rw [stabilize_succ_r2 (fuel + 1) e hd h1 h2]
  rw [r2Body_nopush
    { e with r2Last := createPath e.location, reactionRuns := e.reactionRuns + 1 }
    (createPath e.location) hsync]
  exact stabilize_fixpoint fuel _ h1 rfl

/-- Stabilization where the search reaction is pending against a stale view
but the backend already holds the path (a backend-originated change):
the view is rebuilt and no backend call is made. -/
theorem stabilize_r1_r2nopush (fuel : Nat) (e : Engine)
    (hd : e.disposed = false)
    (h1 : e.location.search ≠ e.r1Last)
    (hcond : e.location.search ≠ normalize (engineToString e.searchParams) "?")
    (hstable : normalize e.location.search "?" = e.location.search)
    (hsync : createPath e.backend.current = createPath e.location)
    (h2 : createPath e.location ≠ e.r2Last) :
    stabilize (fuel + 3) e = some
      { e with
        searchParams := parseSearch e.location.search
        r1Last := e.location.search
        r2Last := createPath e.location
        notifyCount := e.notifyCount + 1
        reactionRuns := e.reactionRuns + 1 + 1 } := by
  rw [show fuel + 3 = (fuel + 2) + 1 from rfl]
  rw [stabilize_succ_r1 (fuel + 2) e hd h1]
  rw [r1Body_spec
    { e with r1Last := e.location.search, reactionRuns := e.reactionRuns + 1 }
    hcond hd hstable]
  exact stabilize_r2nopush_fix fuel
    { e with r1Last := e.location.search, reactionRuns := e.reactionRuns + 1
             searchParams := parseSearch e.location.search
             notifyCount := e.notifyCount + 1 }
    hd rfl h2 hsync

/-- Stabilization where the search reaction is pending against a stale view
and the backend already holds the path, and nothing else is pending. -/
theorem stabilize_r1only (fuel : Nat) (e : Engine)
    (hd : e.disposed = false)
    (h1 : e.location.search ≠ e.r1Last)
    (hcond : e.location.search ≠ normalize (engineToString e.searchParams) "?")
    (hstable : normalize e.location.search "?" = e.location.search)
    (h2 : createPath e.location = e.r2Last) :
    stabilize (fuel + 2) e = some
      { e with
        searchParams := parseSearch e.location.search
        r1Last := e.location.search
        notifyCount := e.notifyCount + 1
        reactionRuns := e.reactionRuns + 1 } := by
  rw [show fuel + 2 = (fuel + 1) + 1 from rfl]
  rw [stabilize_succ_r1 (fuel + 1) e hd h1]
  rw [r1Body_spec
    { e with r1Last := e.location.search, reactionRuns := e.reactionRuns + 1 }
    hcond hd hstable]
  exact stabilize_fixpoint fuel _ rfl h2

end MobxHistory

namespace MobxHistory

/-- `syncSearchParams` called by the params proxy after a mutation that
changed the canonical string: the search store notifies, the re-entrant
search reaction is suppressed (the view already holds the value), the path
reaction issues exactly one push, absorbed on re-entry, and the view object
is rebuilt from the new string. -/
theorem syncSPDirect_spec (fuel : Nat) (e : Engine)
    (hd : e.disposed = false)
    (hr1 : e.r1Last = e.location.search)
    (hr2 : e.r2Last = createPath e.location)
    (hsynced : createPath e.location = createPath e.backend.current)
    (hkey : e.location.key ≠ some e.backend.nextKey)
    (hg : GoodLoc e.location)
    (hnorm : normalize (engineToString e.searchParams) "?" ≠ e.location.search)
    (hg2 : GoodLoc (e.location.setF LocField.search
      (normalize (engineToString e.searchParams) "?"))) :
    syncSPDirect (fuel + 3) e (engineToString e.searchParams) = some
      { e with
        backend := ⟨e.backend.entries.take (e.backend.index + 1) ++
            [{ e.location.setF LocField.search
                  (normalize (engineToString e.searchParams) "?") with
                state := none, key := some e.backend.nextKey }],
          e.backend.index + 1, e.backend.nextKey + 1, NavAction.push⟩
        action := NavAction.push
        location := { e.location.setF LocField.search
            (normalize (engineToString e.searchParams) "?") with
          state := none, key := some e.backend.nextKey }
        searchParams := parseSearch (engineToString e.searchParams)
        r1Last := normalize (engineToString e.searchParams) "?"
        r2Last := createPath (e.location.setF LocField.search
          (normalize (engineToString e.searchParams) "?"))
        pushCount := e.pushCount + 1
        notifyCount := e.notifyCount + 1 + (if e.action = NavAction.push then 0 else 1)
          + countChanged
              (e.location.setF LocField.search
                (normalize (engineToString e.searchParams) "?"))
              { e.location.setF LocField.search
                  (normalize (engineToString e.searchParams) "?") with
                state := none, key := some e.backend.nextKey }
          + 1
        reactionRuns := e.reactionRuns + 1 + 1 } := by
  have hpathne : createPath (e.location.setF LocField.search
      (normalize (engineToString e.searchParams) "?")) ≠ createPath e.location := by
    intro heq
    obtain ⟨hp1, hp2, hp3⟩ := createPath_inj _ e.location hg2 hg heq
    exact hnorm hp2
  have hst : locFieldStore e LocField.search (engineToString e.searchParams) =
      { e with
        location := e.location.setF LocField.search
          (normalize (engineToString e.searchParams) "?")
        notifyCount := e.notifyCount + 1 } := by
    unfold locFieldStore
    rw [hd]
    simp only [Bool.false_eq_true, if_false, interceptChange,
      if_neg (show ¬ e.location.getF LocField.search
        = normalize (engineToString e.searchParams) "?" from fun hc => hnorm hc.symm)]
  unfold syncSPDirect
  rw [if_neg (fun hc => hnorm hc.symm), hst]
  rw [stabilize_r1noop_r2_push fuel
    { e with
      location := e.location.setF LocField.search
        (normalize (engineToString e.searchParams) "?")
      notifyCount := e.notifyCount + 1 }
    hd
    (fun hc => hnorm (hc.trans hr1))
    rfl
    hg2
    (fun hc => hpathne (hsynced.trans hc).symm)
    (fun hc => hpathne (hc.trans hr2))
    (fun hc => hkey ((Loc.setF_key e.location LocField.search
      (normalize (engineToString e.searchParams) "?")).symm.trans hc))]
  rfl

end MobxHistory

namespace MobxHistory

/-- A params-proxy call whose canonical string is unchanged: the target
mutation is kept but nothing propagates (no store write, no reaction, no
backend call). -/
theorem appParamsOp_unchanged_spec (fuel : Nat) (e : Engine) (op : Params → Params)
    (h : engineToString e.searchParams = engineToString (op e.searchParams)) :
    appParamsOp fuel e op = some { e with searchParams := op e.searchParams } := by
  unfold appParamsOp
  rw [if_pos h]

/-- A params-proxy call that changed the canonical string, from a quiescent
state: `syncSearchParams` runs once, writing the normalized string to the
composite query, issuing exactly one backend push and rebuilding the
view. -/
theorem appParamsOp_changed_spec (fuel : Nat) (e : Engine) (op : Params → Params)
    (hq : Quiescent e)
    (hchanged : engineToString e.searchParams ≠ engineToString (op e.searchParams))
    (hnorm : normalize (engineToString (op e.searchParams)) "?" ≠ e.location.search)
    (hg2 : GoodLoc (e.location.setF LocField.search
      (normalize (engineToString (op e.searchParams)) "?"))) :
    appParamsOp (fuel + 3) e op = some
      { e with
        backend := ⟨e.backend.entries.take (e.backend.index + 1) ++
            [{ e.location.setF LocField.search
                  (normalize (engineToString (op e.searchParams)) "?") with
                state := none, key := some e.backend.nextKey }],
          e.backend.index + 1, e.backend.nextKey + 1, NavAction.push⟩
        action := NavAction.push
        location := { e.location.setF LocField.search
            (normalize (engineToString (op e.searchParams)) "?") with
          state := none, key := some e.backend.nextKey }
        searchParams := parseSearch (engineToString (op e.searchParams))
        r1Last := normalize (engineToString (op e.searchParams)) "?"
        r2Last := createPath (e.location.setF LocField.search
          (normalize (engineToString (op e.searchParams)) "?"))
        pushCount := e.pushCount + 1
        notifyCount := e.notifyCount + 1 + (if e.action = NavAction.push then 0 else 1)
          + countChanged
              (e.location.setF LocField.search
                (normalize (engineToString (op e.searchParams)) "?"))
              { e.location.setF LocField.search
                  (normalize (engineToString (op e.searchParams)) "?") with
                state := none, key := some e.backend.nextKey }
          + 1
        reactionRuns := e.reactionRuns + 1 + 1 } := by
  unfold appParamsOp
  rw [if_neg hchanged]
  exact syncSPDirect_spec fuel { e with searchParams := op e.searchParams }
    hq.not_disposed hq.r1 hq.r2 hq.synced hq.key_fresh hq.good hnorm hg2

end MobxHistory

namespace MobxHistory

/-- `push` with a well-formed descriptor stores it with the fresh key. -/
theorem doPush_good (b : Backend) (nl : Loc) (hg : GoodLoc nl) :
    b.doPush nl = (⟨b.entries.take (b.index + 1) ++ [{ nl with key := some b.nextKey }],
      b.index + 1, b.nextKey + 1, NavAction.push⟩, { nl with key := some b.nextKey }) := by
  unfold Backend.doPush
  rw [createLocationObj_good2 nl hg]

/-- `replace` with a well-formed descriptor stores it with the fresh key. -/
theorem doReplace_good (b : Backend) (nl : Loc) (hg : GoodLoc nl) :
    b.doReplace nl = (⟨b.entries.set b.index { nl with key := some b.nextKey },
      b.index, b.nextKey + 1, NavAction.replace⟩, { nl with key := some b.nextKey }) := by
  unfold Backend.doReplace
  rw [createLocationObj_good2 nl hg]

theorem current_push_backend (b : Backend) (loc : Loc) (nk : Nat) (act : NavAction)
    (h : b.index < b.entries.length) :
    Backend.current ⟨b.entries.take (b.index + 1) ++ [loc], b.index + 1, nk, act⟩ = loc := by
  unfold Backend.current
  have hlen : (b.entries.take (b.index + 1)).length = b.index + 1 := by
    rw [List.length_take]
    omega
  simp only
  rw [List.getD_eq_getElem?_getD, List.getElem?_append_right (by omega), hlen]
  simp

theorem current_replace_backend (b : Backend) (loc : Loc) (nk : Nat) (act : NavAction)
    (h : b.index < b.entries.length) :
    Backend.current ⟨b.entries.set b.index loc, b.index, nk, act⟩ = loc := by
  unfold Backend.current
  simp only
  rw [List.getD_eq_getElem?_getD]
  simp [List.getElem?_set, h]

/-- A backend event with a location that is not `locationsAreEqual` to the
composite: the action field is set and every field of the event location is
assigned (well-formed fields pass the interceptor unchanged). -/
theorem onHistoryEvent_assign (e : Engine) (loc : Loc) (a : NavAction)
    (hd : e.disposed = false)
    (hne : locationsAreEqual e.location loc = false)
    (hgl : GoodLoc loc) :
    onHistoryEvent e loc a = { e with
      action := a
      location := loc
      notifyCount := e.notifyCount + (if e.action = a then 0 else 1)
        + countChanged e.location loc } := by
  unfold onHistoryEvent setLocationInner
  rw [hd]
  simp only [Bool.false_eq_true, if_false, descLoc_own]
  rw [show locationsAreEqual e.location loc = false from hne]
  simp only [Bool.false_eq_true, if_false, hd, Bool.not_false]
  rw [assignLoc_good2 e.location loc hgl]

/-- `merge(arg, false)` from a quiescent state, when the merged location has
a changed search and a changed path: exactly one backend push, the event is
assigned back into the composite, the view is rebuilt, no second push. -/
theorem appMerge_push_spec (fuel : Nat) (e : Engine) (arg : MergeArg)
    (hq : Quiescent e)
    (hgm : GoodLoc (mergeLocation e arg))
    (hs_ch : (mergeLocation e arg).search ≠ e.location.search)
    (hp_ch : createPath (mergeLocation e arg) ≠ createPath e.location) :
    appMerge (fuel + 3) e arg false = some
      { e with
        backend := ⟨e.backend.entries.take (e.backend.index + 1) ++
            [{ mergeLocation e arg with key := some e.backend.nextKey }],
          e.backend.index + 1, e.backend.nextKey + 1, NavAction.push⟩
        action := NavAction.push
        location := { mergeLocation e arg with key := some e.backend.nextKey }
        searchParams := parseSearch (mergeLocation e arg).search
        r1Last := (mergeLocation e arg).search
        r2Last := createPath (mergeLocation e arg)
        pushCount := e.pushCount + 1
        notifyCount := e.notifyCount + (if e.action = NavAction.push then 0 else 1)
          + countChanged e.location { mergeLocation e arg with key := some e.backend.nextKey }
          + 1
        reactionRuns := e.reactionRuns + 1 + 1 } := by
  have hgl : GoodLoc { mergeLocation e arg with key := some e.backend.nextKey } :=
    goodLoc_state_key (mergeLocation e arg) hgm (mergeLocation e arg).state
      (some e.backend.nextKey)
  unfold appMerge
  simp only [Bool.false_eq_true, if_false]
  rw [doPush_good e.backend (mergeLocation e arg) hgm]
  rw [onHistoryEvent_assign
    { e with
      backend := ⟨e.backend.entries.take (e.backend.index + 1) ++
          [{ mergeLocation e arg with key := some e.backend.nextKey }],
        e.backend.index + 1, e.backend.nextKey + 1, NavAction.push⟩
      pushCount := e.pushCount + 1 }
    { mergeLocation e arg with key := some e.backend.nextKey }
    NavAction.push
    hq.not_disposed
    (locationsAreEqual_false_of_key _ _ hq.key_fresh)
    hgl]
  exact stabilize_r1_r2nopush fuel
    { e with
      backend := ⟨e.backend.entries.take (e.backend.index + 1) ++
          [{ mergeLocation e arg with key := some e.backend.nextKey }],
        e.backend.index + 1, e.backend.nextKey + 1, NavAction.push⟩
      pushCount := e.pushCount + 1
      action := NavAction.push
      location := { mergeLocation e arg with key := some e.backend.nextKey }
      notifyCount := e.notifyCount + (if e.action = NavAction.push then 0 else 1)
        + countChanged e.location { mergeLocation e arg with key := some e.backend.nextKey } }
    hq.not_disposed
    (fun hc => hs_ch (hc.trans hq.r1))
    (fun hc => hs_ch (hc.trans hq.view.symm))
    (normalize_search_good _ hgl)
    (congrArg createPath
      (current_push_backend e.backend _ (e.backend.nextKey + 1) NavAction.push hq.idx_lt))
    (fun hc => hp_ch (hc.trans hq.r2))

end MobxHistory

namespace MobxHistory

/-- `merge(arg, true)` from a quiescent state, when the merged location has
a changed search and a changed path: exactly one backend replace (the entry
log keeps its length), the event is assigned back into the composite, the
view is rebuilt, and no push at all. -/
theorem appMerge_replace_spec (fuel : Nat) (e : Engine) (arg : MergeArg)
    (hq : Quiescent e)
    (hgm : GoodLoc (mergeLocation e arg))
    (hs_ch : (mergeLocation e arg).search ≠ e.location.search)
    (hp_ch : createPath (mergeLocation e arg) ≠ createPath e.location) :
    appMerge (fuel + 3) e arg true = some
      { e with
        backend := ⟨e.backend.entries.set e.backend.index
            { mergeLocation e arg with key := some e.backend.nextKey },
          e.backend.index, e.backend.nextKey + 1, NavAction.replace⟩
        action := NavAction.replace
        location := { mergeLocation e arg with key := some e.backend.nextKey }
        searchParams := parseSearch (mergeLocation e arg).search
        r1Last := (mergeLocation e arg).search
        r2Last := createPath (mergeLocation e arg)
        replaceCount := e.replaceCount + 1
        notifyCount := e.notifyCount + (if e.action = NavAction.replace then 0 else 1)
          + countChanged e.location { mergeLocation e arg with key := some e.backend.nextKey }
          + 1
        reactionRuns := e.reactionRuns + 1 + 1 } := by
  have hgl : GoodLoc { mergeLocation e arg with key := some e.backend.nextKey } :=
    goodLoc_state_key (mergeLocation e arg) hgm (mergeLocation e arg).state
      (some e.backend.nextKey)
  unfold appMerge
  simp only [if_true]
  rw [doReplace_good e.backend (mergeLocation e arg) hgm]
  rw [onHistoryEvent_assign
    { e with
      backend := ⟨e.backend.entries.set e.backend.index
          { mergeLocation e arg with key := some e.backend.nextKey },
        e.backend.index, e.backend.nextKey + 1, NavAction.replace⟩
      replaceCount := e.replaceCount + 1 }
    { mergeLocation e arg with key := some e.backend.nextKey }
    NavAction.replace
    hq.not_disposed
    (locationsAreEqual_false_of_key _ _ hq.key_fresh)
    hgl]
  exact stabilize_r1_r2nopush fuel
    { e with
      backend := ⟨e.backend.entries.set e.backend.index
          { mergeLocation e arg with key := some e.backend.nextKey },
        e.backend.index, e.backend.nextKey + 1, NavAction.replace⟩
      replaceCount := e.replaceCount + 1
      action := NavAction.replace
      location := { mergeLocation e arg with key := some e.backend.nextKey }
      notifyCount := e.notifyCount + (if e.action = NavAction.replace then 0 else 1)
        + countChanged e.location { mergeLocation e arg with key := some e.backend.nextKey } }
    hq.not_disposed
    (fun hc => hs_ch (hc.trans hq.r1))
    (fun hc => hs_ch (hc.trans hq.view.symm))
    (normalize_search_good _ hgl)
    (congrArg createPath
      (current_replace_backend e.backend _ (e.backend.nextKey + 1) NavAction.replace hq.idx_lt))
    (fun hc => hp_ch (hc.trans hq.r2))

end MobxHistory

/-- C1: from a quiescent state, every single effective local mutation — one
composite-location field write whose normalized value differs, one params
mutation that changes the canonical string, or one `merge` call — issues
exactly one backend push (replace for `merge` with `replace = true`); the
backend event re-entering through the listener is absorbed by the equality
checks, the reaction chain runs at most two internal passes, and the
resulting state is again a fixpoint of the batch runner (no cycling). -/
theorem MobxHistory.C1_one_mutation_one_push (fuel : Nat) (e : MobxHistory.Engine)
    (hq : MobxHistory.Quiescent e) :
    (∀ (f : MobxHistory.LocField) (v : String),
      MobxHistory.GoodLoc (e.location.setF f (MobxHistory.interceptChange f v)) →
      MobxHistory.interceptChange f v ≠ e.location.getF f →
      ∃ e2, MobxHistory.appFieldWrite (fuel + 3) e f v = some e2
        ∧ e2.pushCount = e.pushCount + 1
        ∧ e2.replaceCount = e.replaceCount
        ∧ e2.reactionRuns ≤ e.reactionRuns + 2
        ∧ MobxHistory.stabilize 1 e2 = some e2)
    ∧ (∀ op : MobxHistory.Params → MobxHistory.Params,
      MobxHistory.engineToString (op e.searchParams)
          ≠ MobxHistory.engineToString e.searchParams →
      MobxHistory.normalize (MobxHistory.engineToString (op e.searchParams)) "?"
          ≠ e.location.search →
      MobxHistory.GoodLoc (e.location.setF MobxHistory.LocField.search
        (MobxHistory.normalize (MobxHistory.engineToString (op e.searchParams)) "?")) →
      ∃ e2, MobxHistory.appParamsOp (fuel + 3) e op = some e2
        ∧ e2.pushCount = e.pushCount + 1
        ∧ e2.replaceCount = e.replaceCount
        ∧ e2.reactionRuns ≤ e.reactionRuns + 2
        ∧ MobxHistory.stabilize 1 e2 = some e2)
    ∧ (∀ (arg : MobxHistory.MergeArg) (rep : Bool),
      MobxHistory.GoodLoc (MobxHistory.mergeLocation e arg) →
      (MobxHistory.mergeLocation e arg).search ≠ e.location.search →
      MobxHistory.createPath (MobxHistory.mergeLocation e arg)
          ≠ MobxHistory.createPath e.location →
      ∃ e2, MobxHistory.appMerge (fuel + 3) e arg rep = some e2
        ∧ e2.pushCount = e.pushCount + (if rep then 0 else 1)
        ∧ e2.replaceCount = e.replaceCount + (if rep then 1 else 0)
        ∧ e2.reactionRuns ≤ e.reactionRuns + 2
        ∧ MobxHistory.stabilize 1 e2 = some e2) := by
  refine ⟨fun f v hg2 hch => ?_, fun op hchanged hnorm hg2 => ?_, fun arg rep hgm hs hp => ?_⟩
  · cases f with
    | search =>
      refine ⟨_, MobxHistory.appFieldWrite_search_spec fuel e v hq hg2 hch, rfl, rfl,
        by show e.reactionRuns + 1 + 1 ≤ e.reactionRuns + 2; omega, ?_⟩
      exact MobxHistory.stabilize_fixpoint 0 _ rfl
        (MobxHistory.createPath_state_key _ _ _)
    | pathname =>
      refine ⟨_, MobxHistory.appFieldWrite_other_spec (fuel + 1) e
        MobxHistory.LocField.pathname v hq (Or.inl rfl) hg2 hch, rfl, rfl,
        by show e.reactionRuns + 1 ≤ e.reactionRuns + 2; omega, ?_⟩
      refine MobxHistory.stabilize_fixpoint 0 _ ?_ (MobxHistory.createPath_state_key _ _ _)
      exact (MobxHistory.Loc.setF_search_other e.location MobxHistory.LocField.pathname
        (MobxHistory.interceptChange MobxHistory.LocField.pathname v) (Or.inl rfl)).trans
        hq.r1.symm
    | hash =>
      refine ⟨_, MobxHistory.appFieldWrite_other_spec (fuel + 1) e
        MobxHistory.LocField.hash v hq (Or.inr rfl) hg2 hch, rfl, rfl,
        by show e.reactionRuns + 1 ≤ e.reactionRuns + 2; omega, ?_⟩
      refine MobxHistory.stabilize_fixpoint 0 _ ?_ (MobxHistory.createPath_state_key _ _ _)
      exact (MobxHistory.Loc.setF_search_other e.location MobxHistory.LocField.hash
        (MobxHistory.interceptChange MobxHistory.LocField.hash v) (Or.inr rfl)).trans
        hq.r1.symm
  · refine ⟨_, MobxHistory.appParamsOp_changed_spec fuel e op hq (fun hc => hchanged hc.symm)
      hnorm hg2, rfl, rfl, by show e.reactionRuns + 1 + 1 ≤ e.reactionRuns + 2; omega, ?_⟩
    exact MobxHistory.stabilize_fixpoint 0 _ rfl (MobxHistory.createPath_state_key _ _ _)
  · cases rep with
    | false =>
      refine ⟨_, MobxHistory.appMerge_push_spec fuel e arg hq hgm hs hp, rfl, rfl,
        by show e.reactionRuns + 1 + 1 ≤ e.reactionRuns + 2; omega, ?_⟩
      exact MobxHistory.stabilize_fixpoint 0 _ rfl rfl
    | true =>
      refine ⟨_, MobxHistory.appMerge_replace_spec fuel e arg hq hgm hs hp, rfl, rfl,
        by show e.reactionRuns + 1 + 1 ≤ e.reactionRuns + 2; omega, ?_⟩
      exact MobxHistory.stabilize_fixpoint 0 _ rfl rfl

namespace MobxHistory

theorem sampleEngine_quiescent : Quiescent sampleEngine :=
  ⟨by decide, by decide, by decide, by decide, by decide, by decide, by decide,
    ⟨by decide, by decide, by decide, by decide, by decide, by decide⟩⟩

end MobxHistory

/-- Witness for C1: writing `"x=1"` to the query of a concrete quiescent
engine issues exactly one push and reaches a fixpoint. -/
theorem MobxHistory.C1_one_mutation_one_push_witness :
    ∃ e2, MobxHistory.appFieldWrite 3 MobxHistory.sampleEngine
        MobxHistory.LocField.search "x=1" = some e2
      ∧ e2.pushCount = MobxHistory.sampleEngine.pushCount + 1
      ∧ e2.replaceCount = MobxHistory.sampleEngine.replaceCount
      ∧ e2.reactionRuns ≤ MobxHistory.sampleEngine.reactionRuns + 2
      ∧ MobxHistory.stabilize 1 e2 = some e2 :=
  (MobxHistory.C1_one_mutation_one_push 0 MobxHistory.sampleEngine
      MobxHistory.sampleEngine_quiescent).1
    MobxHistory.LocField.search "x=1"
    ⟨by decide, by decide, by decide, by decide, by decide, by decide⟩
    (by decide)

/-- C6: a params-proxy method call propagates to the composite query field
iff the canonical string (under the view encoder) differs before and after
the call: an unchanged string leaves everything but the in-place target
mutation alone; a changed string updates the query to its normalized form,
rebuilds the view and pushes once.  In particular `delete` of an absent
name and `set` of an already-identical single value propagate nothing —
while `sort`, whenever it reorders (string differs), does propagate. -/
theorem MobxHistory.C6_canonical_change_detection (fuel : Nat) (e : MobxHistory.Engine)
    (hq : MobxHistory.Quiescent e) :
    (∀ op : MobxHistory.Params → MobxHistory.Params,
      MobxHistory.engineToString (op e.searchParams)
          = MobxHistory.engineToString e.searchParams →
      MobxHistory.appParamsOp fuel e op = some { e with searchParams := op e.searchParams })
    ∧ (∀ op : MobxHistory.Params → MobxHistory.Params,
      MobxHistory.engineToString (op e.searchParams)
          ≠ MobxHistory.engineToString e.searchParams →
      MobxHistory.normalize (MobxHistory.engineToString (op e.searchParams)) "?"
          ≠ e.location.search →
      MobxHistory.GoodLoc (e.location.setF MobxHistory.LocField.search
        (MobxHistory.normalize (MobxHistory.engineToString (op e.searchParams)) "?")) →
      ∃ e2, MobxHistory.appParamsOp (fuel + 3) e op = some e2
        ∧ e2.location.search
            = MobxHistory.normalize (MobxHistory.engineToString (op e.searchParams)) "?"
        ∧ e2.searchParams
            = MobxHistory.parseSearch (MobxHistory.engineToString (op e.searchParams))
        ∧ e2.pushCount = e.pushCount + 1)
    ∧ (∀ n : String, (∀ kv ∈ e.searchParams, kv.1 ≠ n) →
      MobxHistory.appParamsOp fuel e (fun ps => MobxHistory.paramsDelete ps n) = some e)
    ∧ (∀ n v : String, MobxHistory.paramsSet e.searchParams n v = e.searchParams →
      MobxHistory.appParamsOp fuel e (fun ps => MobxHistory.paramsSet ps n v) = some e) := by
  refine ⟨fun op h => ?_, fun op hch hnorm hg2 => ?_, fun n h => ?_, fun n v h => ?_⟩
  · exact MobxHistory.appParamsOp_unchanged_spec fuel e op h.symm
  · exact ⟨_, MobxHistory.appParamsOp_changed_spec fuel e op hq (fun hc => hch hc.symm)
      hnorm hg2, rfl, rfl, rfl⟩
  · have hid : MobxHistory.paramsDelete e.searchParams n = e.searchParams := by
      unfold MobxHistory.paramsDelete
      rw [List.filter_eq_self]
      intro a ha
      simpa using h a ha
    have h2 := MobxHistory.appParamsOp_unchanged_spec fuel e
      (fun ps => MobxHistory.paramsDelete ps n)
      (by show MobxHistory.engineToString e.searchParams
            = MobxHistory.engineToString (MobxHistory.paramsDelete e.searchParams n)
          rw [hid])
    simp only [hid] at h2
    exact h2
  · have h2 := MobxHistory.appParamsOp_unchanged_spec fuel e
      (fun ps => MobxHistory.paramsSet ps n v)
      (by show MobxHistory.engineToString e.searchParams
            = MobxHistory.engineToString (MobxHistory.paramsSet e.searchParams n v)
          rw [h])
    simp only [h] at h2
    exact h2

namespace MobxHistory

/-- A quiescent engine whose params are out of name order, for the `sort`
instance. -/
def sortSampleEngine : Engine :=
  Engine.create ⟨[⟨"/", "?b=2&a=1", "", none, none⟩], 0, 0, .pop⟩

theorem sortSampleEngine_quiescent : Quiescent sortSampleEngine :=
  ⟨by decide, by decide, by decide, by decide, by decide, by decide, by decide,
    ⟨by decide, by decide, by decide, by decide, by decide, by decide⟩⟩

end MobxHistory

/-- Witness for C6: `delete` of the absent name `zz` on a concrete engine
propagates nothing, and `sort` on a reordered concrete engine pushes once
and updates the composite query. -/
theorem MobxHistory.C6_canonical_change_detection_witness :
    MobxHistory.appParamsOp 3 MobxHistory.sampleEngine
        (fun ps => MobxHistory.paramsDelete ps "zz") = some MobxHistory.sampleEngine
    ∧ ∃ e2, MobxHistory.appParamsOp 3 MobxHistory.sortSampleEngine
          MobxHistory.paramsSort = some e2
        ∧ e2.location.search = MobxHistory.normalize
            (MobxHistory.engineToString
              (MobxHistory.paramsSort MobxHistory.sortSampleEngine.searchParams)) "?"
        ∧ e2.searchParams = MobxHistory.parseSearch
            (MobxHistory.engineToString
              (MobxHistory.paramsSort MobxHistory.sortSampleEngine.searchParams))
        ∧ e2.pushCount = MobxHistory.sortSampleEngine.pushCount + 1 :=
  ⟨(MobxHistory.C6_canonical_change_detection 3 MobxHistory.sampleEngine
      MobxHistory.sampleEngine_quiescent).2.2.1 "zz" (by decide),
    (MobxHistory.C6_canonical_change_detection 0 MobxHistory.sortSampleEngine
      MobxHistory.sortSampleEngine_quiescent).2.1 MobxHistory.paramsSort
      (by decide) (by decide)
      ⟨by decide, by decide, by decide, by decide, by decide, by decide⟩⟩

/-- C7: `merge(partial, replace)`: a string argument is parsed and its falsy
(empty) fields are dropped so the existing composite values are kept, the
new location is the shallow merge over the current composite snapshot
(state preserved), and the backend receives exactly one `replace` call when
`replace = true` (entry count unchanged) and exactly one `push` call when
`replace = false` (entry count one larger when the engine sits at the top
of the log). -/
theorem MobxHistory.C7_merge_semantics (fuel : Nat) (e : MobxHistory.Engine)
    (hq : MobxHistory.Quiescent e) :
    (∀ s : String,
      ((MobxHistory.createLocationStr s).search = "" →
        (MobxHistory.mergeLocation e (MobxHistory.MergeArg.str s)).search
          = e.location.search)
      ∧ ((MobxHistory.createLocationStr s).search ≠ "" →
        (MobxHistory.mergeLocation e (MobxHistory.MergeArg.str s)).search
          = (MobxHistory.createLocationStr s).search)
      ∧ ((MobxHistory.createLocationStr s).hash = "" →
        (MobxHistory.mergeLocation e (MobxHistory.MergeArg.str s)).hash
          = e.location.hash)
      ∧ ((MobxHistory.createLocationStr s).hash ≠ "" →
        (MobxHistory.mergeLocation e (MobxHistory.MergeArg.str s)).hash
          = (MobxHistory.createLocationStr s).hash)
      ∧ (MobxHistory.mergeLocation e (MobxHistory.MergeArg.str s)).state
          = e.location.state)
    ∧ (∀ arg : MobxHistory.MergeArg,
      MobxHistory.GoodLoc (MobxHistory.mergeLocation e arg) →
      (MobxHistory.mergeLocation e arg).search ≠ e.location.search →
      MobxHistory.createPath (MobxHistory.mergeLocation e arg)
          ≠ MobxHistory.createPath e.location →
      ∃ e2, MobxHistory.appMerge (fuel + 3) e arg true = some e2
        ∧ e2.replaceCount = e.replaceCount + 1
        ∧ e2.pushCount = e.pushCount
        ∧ e2.backend.entries.length = e.backend.entries.length
        ∧ e2.location.pathname = (MobxHistory.mergeLocation e arg).pathname
        ∧ e2.location.search = (MobxHistory.mergeLocation e arg).search
        ∧ e2.location.hash = (MobxHistory.mergeLocation e arg).hash)
    ∧ (∀ arg : MobxHistory.MergeArg,
      e.backend.index + 1 = e.backend.entries.length →
      MobxHistory.GoodLoc (MobxHistory.mergeLocation e arg) →
      (MobxHistory.mergeLocation e arg).search ≠ e.location.search →
      MobxHistory.createPath (MobxHistory.mergeLocation e arg)
          ≠ MobxHistory.createPath e.location →
      ∃ e2, MobxHistory.appMerge (fuel + 3) e arg false = some e2
        ∧ e2.pushCount = e.pushCount + 1
        ∧ e2.replaceCount = e.replaceCount
        ∧ e2.backend.entries.length = e.backend.entries.length + 1
        ∧ e2.location.pathname = (MobxHistory.mergeLocation e arg).pathname
        ∧ e2.location.search = (MobxHistory.mergeLocation e arg).search
        ∧ e2.location.hash = (MobxHistory.mergeLocation e arg).hash) := by
  refine ⟨fun s => ⟨fun h => ?_, fun h => ?_, fun h => ?_, fun h => ?_, rfl⟩,
    fun arg hgm hs hp => ?_, fun arg htop hgm hs hp => ?_⟩
  · simp [MobxHistory.mergeLocation, h]
  · simp [MobxHistory.mergeLocation, h]
  · simp [MobxHistory.mergeLocation, h]
  · simp [MobxHistory.mergeLocation, h]
  · refine ⟨_, MobxHistory.appMerge_replace_spec fuel e arg hq hgm hs hp,
      rfl, rfl, ?_, rfl, rfl, rfl⟩
    show (e.backend.entries.set e.backend.index _).length = e.backend.entries.length
    simp
  · refine ⟨_, MobxHistory.appMerge_push_spec fuel e arg hq hgm hs hp,
      rfl, rfl, ?_, rfl, rfl, rfl⟩
    show (e.backend.entries.take (e.backend.index + 1) ++ [_]).length
      = e.backend.entries.length + 1
    simp [List.length_take]
    omega

/-- Witness for C7: a string merge on concrete engines keeps the existing
query when the parsed query is empty, and `merge("/test?x=1", replace)`
makes exactly one replace (entry count kept) or one push (entry count one
larger). -/
theorem MobxHistory.C7_merge_semantics_witness :
    (MobxHistory.mergeLocation MobxHistory.sortSampleEngine
        (MobxHistory.MergeArg.str "/newpath")).search
      = MobxHistory.sortSampleEngine.location.search
    ∧ (∃ e2, MobxHistory.appMerge 3 MobxHistory.sampleEngine
          (MobxHistory.MergeArg.str "/test?x=1") true = some e2
        ∧ e2.replaceCount = MobxHistory.sampleEngine.replaceCount + 1
        ∧ e2.pushCount = MobxHistory.sampleEngine.pushCount
        ∧ e2.backend.entries.length = MobxHistory.sampleEngine.backend.entries.length)
    ∧ (∃ e2, MobxHistory.appMerge 3 MobxHistory.sampleEngine
          (MobxHistory.MergeArg.str "/test?x=1") false = some e2
        ∧ e2.pushCount = MobxHistory.sampleEngine.pushCount + 1
        ∧ e2.backend.entries.length
            = MobxHistory.sampleEngine.backend.entries.length + 1) := by
  refine ⟨((MobxHistory.C7_merge_semantics 0 MobxHistory.sortSampleEngine
      MobxHistory.sortSampleEngine_quiescent).1 "/newpath").1 (by decide), ?_, ?_⟩
  · obtain ⟨e2, h1, h2, h3, h4, _⟩ :=
      (MobxHistory.C7_merge_semantics 0 MobxHistory.sampleEngine
        MobxHistory.sampleEngine_quiescent).2.1 (MobxHistory.MergeArg.str "/test?x=1")
        ⟨by decide, by decide, by decide, by decide, by decide, by decide⟩
        (by decide) (by decide)
    exact ⟨e2, h1, h2, h3, h4⟩
  · obtain ⟨e2, h1, h2, _, h4, _⟩ :=
      (MobxHistory.C7_merge_semantics 0 MobxHistory.sampleEngine
        MobxHistory.sampleEngine_quiescent).2.2 (MobxHistory.MergeArg.str "/test?x=1")
        (by decide)
        ⟨by decide, by decide, by decide, by decide, by decide, by decide⟩
        (by decide) (by decide)
    exact ⟨e2, h1, h2, h4⟩

namespace MobxHistory

/-- `locationsAreEqual` is componentwise. -/
theorem locationsAreEqual_true_iff (a b : Loc) :
    locationsAreEqual a b = true ↔
      a.pathname = b.pathname ∧ a.search = b.search ∧ a.hash = b.hash ∧
        a.key = b.key ∧ a.state = b.state := by
  unfold locationsAreEqual
  simp

/-- An engine sitting on an entry that carries a history key and a defined
state value, as any engine does after an external push with state. -/
def statedEngine : Engine :=
  Engine.create ⟨[⟨"/a", "", "", some 7, some 0⟩], 0, 1, .push⟩

theorem statedEngine_quiescent : Quiescent statedEngine :=
  ⟨by decide, by decide, by decide, by decide, by decide, by decide, by decide,
    ⟨by decide, by decide, by decide, by decide, by decide, by decide⟩⟩

end MobxHistory

/-- Counterexample for C5: on a concrete engine whose location carries a
defined `state`, assigning the string `"/a"` — whose canonical
full-location string equals the current one — is not dropped entirely:
`createLocation` on a string sets `state` (to `undefined`) as an own
property, so `Object.assign` overwrites the stored state and one
notification fires, contrary to the claimed complete drop.  The stored
`key` is untouched (the parsed location has no `key` own property) and no
backend call is made. -/
theorem MobxHistory.C5_counterexample :
    MobxHistory.createPath (MobxHistory.createLocationStr "/a")
        = MobxHistory.createPath MobxHistory.statedEngine.location
    ∧ MobxHistory.statedEngine.location.state = some 7
    ∧ MobxHistory.statedEngine.location.key = some 0
    ∧ (MobxHistory.appSetLocationStr 1 MobxHistory.statedEngine "/a").map
        (fun e2 => (e2.location.state, e2.location.key, e2.notifyCount, e2.pushCount))
      = some (none, some 0, MobxHistory.statedEngine.notifyCount + 1,
          MobxHistory.statedEngine.pushCount) := by
  refine ⟨by decide, by decide, by decide, ?_⟩
  decide

/-- C5 amended: `setLocation` guards with `locationsAreEqual` — which
compares `pathname`, `search`, `hash`, `key` and `state`, not the canonical
string — and `Object.assign` copies only the descriptor's own properties.
A string input is parsed by `createLocation`, which sets the three path
fields and an `undefined` state but no key, so a string assignment never
touches the stored key.  Consequently: an assignment equal under
`locationsAreEqual` is dropped entirely; a string assignment whose parsed
fields equal the current ones is a complete no-op when the stored state is
`undefined` (even when the stored key differs, every written value is
unchanged); when the composite carries a defined state, the same
assignment overwrites that state to `undefined` with one notification but
still no backend call; and when the canonical path differs, the own fields
are assigned as one atomic batch and exactly one backend push is
issued. -/
theorem MobxHistory.C5_whole_assignment (fuel : Nat) (e : MobxHistory.Engine)
    (hq : MobxHistory.Quiescent e) :
    (∀ v : MobxHistory.Loc, MobxHistory.locationsAreEqual e.location v = true →
      MobxHistory.setLocationFacade (fuel + 1) e (MobxHistory.Loc.own v) = some e)
    ∧ (∀ v : MobxHistory.Loc, MobxHistory.locationsAreEqual e.location v = false →
      MobxHistory.GoodLoc v →
      MobxHistory.createPath v = MobxHistory.createPath e.location →
      MobxHistory.setLocationFacade (fuel + 1) e (MobxHistory.Loc.own v) = some
        { e with location := v
                 notifyCount := e.notifyCount + MobxHistory.countChanged e.location v })
    ∧ (∀ p : String,
      MobxHistory.createLocationStr p
          = ⟨e.location.pathname, e.location.search, e.location.hash, none, none⟩ →
      e.location.state = none →
      MobxHistory.appSetLocationStr (fuel + 1) e p = some e)
    ∧ (∀ p : String,
      MobxHistory.createLocationStr p
          = ⟨e.location.pathname, e.location.search, e.location.hash, none, none⟩ →
      e.location.state ≠ none →
      MobxHistory.appSetLocationStr (fuel + 1) e p = some
        { e with location := { e.location with state := none }
                 notifyCount := e.notifyCount + 1 })
    ∧ (∀ p : String,
      MobxHistory.GoodLoc (MobxHistory.createLocationStr p) →
      MobxHistory.createPath (MobxHistory.createLocationStr p)
          ≠ MobxHistory.createPath e.location →
      ∃ e2, MobxHistory.appSetLocationStr (fuel + 3) e p = some e2
        ∧ e2.pushCount = e.pushCount + 1
        ∧ e2.replaceCount = e.replaceCount
        ∧ e2.location.pathname = (MobxHistory.createLocationStr p).pathname
        ∧ e2.location.search = (MobxHistory.createLocationStr p).search
        ∧ e2.location.hash = (MobxHistory.createLocationStr p).hash)
    ∧ (∀ p : String, MobxHistory.appSetLocationStr fuel e p
        = MobxHistory.setLocationFacade fuel e (MobxHistory.strLocOwn p)) := by
  refine ⟨fun v h => ?_, fun v h hgv hpath => ?_, fun p hp hst => ?_, fun p hp hst => ?_,
    fun p hgv hpath => ?_, fun p => rfl⟩
  · unfold MobxHistory.setLocationFacade MobxHistory.setLocationInner
    rw [MobxHistory.descLoc_own, h]
    simp only [if_true]
    exact MobxHistory.stabilize_fixpoint fuel e hq.r1.symm hq.r2.symm
  · have hfields := MobxHistory.createPath_inj v e.location hgv hq.good hpath
    unfold MobxHistory.setLocationFacade MobxHistory.setLocationInner
    rw [MobxHistory.descLoc_own, h]
    simp only [Bool.false_eq_true, if_false, hq.not_disposed, Bool.not_false, if_true]
    rw [MobxHistory.assignLoc_good2 e.location v hgv]
    exact MobxHistory.stabilize_fixpoint fuel _
      (hfields.2.1.trans hq.r1.symm)
      (hpath.trans hq.r2.symm)
  · have hgp : MobxHistory.GoodLoc (MobxHistory.createLocationStr p) := by
      rw [hp]
      exact MobxHistory.goodLoc_state_key e.location hq.good none none
    have hnl : MobxHistory.assignLoc true e.location (MobxHistory.strLocOwn p)
        = e.location := by
      rw [MobxHistory.assignLoc_str e.location p hgp, hp, ← hst]
    have hdesc : MobxHistory.descLoc (MobxHistory.strLocOwn p)
        = ⟨e.location.pathname, e.location.search, e.location.hash, none, none⟩ := by
      rw [MobxHistory.descLoc_str, hp]
    show MobxHistory.stabilize (fuel + 1)
        (MobxHistory.setLocationInner e (MobxHistory.strLocOwn p)) = some e
    by_cases hk : e.location.key = none
    · have hguard : MobxHistory.locationsAreEqual e.location
          (MobxHistory.descLoc (MobxHistory.strLocOwn p)) = true := by
        rw [hdesc, MobxHistory.locationsAreEqual_true_iff]
        exact ⟨rfl, rfl, rfl, hk, hst⟩
      unfold MobxHistory.setLocationInner
      rw [hguard]
      simp only [if_true]
      exact MobxHistory.stabilize_fixpoint fuel e hq.r1.symm hq.r2.symm
    · have hguard : MobxHistory.locationsAreEqual e.location
          (MobxHistory.descLoc (MobxHistory.strLocOwn p)) = false := by
        rw [hdesc]
        exact MobxHistory.locationsAreEqual_false_of_key _ _ (by
          show e.location.key ≠ none
          exact hk)
      have hcc : MobxHistory.countChanged e.location e.location = 0 := by
        unfold MobxHistory.countChanged
        simp
      have hstore : MobxHistory.setLocationInner e (MobxHistory.strLocOwn p) = e := by
        unfold MobxHistory.setLocationInner
        rw [hguard]
        simp only [Bool.false_eq_true, if_false, hq.not_disposed, Bool.not_false, if_true]
        rw [hnl, hcc, ← hq.not_disposed]
        rfl
      rw [hstore]
      exact MobxHistory.stabilize_fixpoint fuel e hq.r1.symm hq.r2.symm
  · have hgp : MobxHistory.GoodLoc (MobxHistory.createLocationStr p) := by
      rw [hp]
      exact MobxHistory.goodLoc_state_key e.location hq.good none none
    have hguard : MobxHistory.locationsAreEqual e.location
        (MobxHistory.descLoc (MobxHistory.strLocOwn p)) = false := by
      rw [MobxHistory.descLoc_str, hp]
      unfold MobxHistory.locationsAreEqual
      simp only [decide_eq_false_iff_not]
      intro hc
      exact hst hc.2.2.2.2
    have hnl : MobxHistory.assignLoc true e.location (MobxHistory.strLocOwn p)
        = { e.location with state := none } := by
      rw [MobxHistory.assignLoc_str e.location p hgp, hp]
    have hcc : MobxHistory.countChanged e.location { e.location with state := none } = 1 := by
      unfold MobxHistory.countChanged
      simp [hst]
    have hstore : MobxHistory.setLocationInner e (MobxHistory.strLocOwn p) = { e with
        location := { e.location with state := none }
        notifyCount := e.notifyCount + 1 } := by
      unfold MobxHistory.setLocationInner
      rw [hguard]
      simp only [Bool.false_eq_true, if_false, hq.not_disposed, Bool.not_false, if_true]
      rw [hnl, hcc]
    show MobxHistory.stabilize (fuel + 1)
        (MobxHistory.setLocationInner e (MobxHistory.strLocOwn p)) = some _
    rw [hstore]
    exact MobxHistory.stabilize_fixpoint fuel _ hq.r1.symm
      ((MobxHistory.createPath_state_key e.location none e.location.key).trans hq.r2.symm)
  · have hguard : MobxHistory.locationsAreEqual e.location
        (MobxHistory.descLoc (MobxHistory.strLocOwn p)) = false := by
      rw [MobxHistory.descLoc_str]
      rcases hb : MobxHistory.locationsAreEqual e.location
          ⟨(MobxHistory.createLocationStr p).pathname,
            (MobxHistory.createLocationStr p).search,
            (MobxHistory.createLocationStr p).hash, none, none⟩ with _ | _
      · rfl
      · obtain ⟨h1, h2, h3, _, _⟩ := (MobxHistory.locationsAreEqual_true_iff _ _).mp hb
        simp only at h1 h2 h3
        refine absurd ?_ hpath
        have d1 := MobxHistory.createPath_data (MobxHistory.createLocationStr p) hgv
        have d2 := MobxHistory.createPath_data e.location hq.good
        rw [← h1, ← h2, ← h3] at d1
        calc MobxHistory.createPath (MobxHistory.createLocationStr p)
            = String.mk (MobxHistory.createPath (MobxHistory.createLocationStr p)).data := rfl
          _ = String.mk (MobxHistory.createPath e.location).data := by rw [d1, d2]
          _ = MobxHistory.createPath e.location := rfl
    have hstore : MobxHistory.setLocationInner e (MobxHistory.strLocOwn p) = { e with
        location := { MobxHistory.createLocationStr p with
          state := none, key := e.location.key }
        notifyCount := e.notifyCount + MobxHistory.countChanged e.location
          { MobxHistory.createLocationStr p with
            state := none, key := e.location.key } } := by
      unfold MobxHistory.setLocationInner
      rw [hguard]
      simp only [Bool.false_eq_true, if_false, hq.not_disposed, Bool.not_false, if_true]
      rw [MobxHistory.assignLoc_str e.location p hgv]
    show ∃ e2, MobxHistory.stabilize (fuel + 3)
        (MobxHistory.setLocationInner e (MobxHistory.strLocOwn p)) = some e2
      ∧ e2.pushCount = e.pushCount + 1
      ∧ e2.replaceCount = e.replaceCount
      ∧ e2.location.pathname = (MobxHistory.createLocationStr p).pathname
      ∧ e2.location.search = (MobxHistory.createLocationStr p).search
      ∧ e2.location.hash = (MobxHistory.createLocationStr p).hash
    rw [hstore]
    by_cases hs : (MobxHistory.createLocationStr p).search = e.location.search
    · exact ⟨_, MobxHistory.stabilize_r2_push (fuel + 1)
        { e with
          location := { MobxHistory.createLocationStr p with
            state := none, key := e.location.key }
          notifyCount := e.notifyCount + MobxHistory.countChanged e.location
            { MobxHistory.createLocationStr p with
              state := none, key := e.location.key } }
        hq.not_disposed
        (hs.trans hq.r1.symm)
        (fun hc => hpath (((MobxHistory.createPath_state_key
          (MobxHistory.createLocationStr p) none e.location.key).symm.trans hc).trans hq.r2))
        (MobxHistory.goodLoc_state_key (MobxHistory.createLocationStr p) hgv none
          e.location.key)
        (fun hc => hpath ((MobxHistory.createPath_state_key
          (MobxHistory.createLocationStr p) none e.location.key).symm.trans
          (hq.synced.trans hc).symm))
        hq.key_fresh, rfl, rfl, rfl, rfl, rfl⟩
    · exact ⟨_, MobxHistory.stabilize_r1_r2_push fuel
        { e with
          location := { MobxHistory.createLocationStr p with
            state := none, key := e.location.key }
          notifyCount := e.notifyCount + MobxHistory.countChanged e.location
            { MobxHistory.createLocationStr p with
              state := none, key := e.location.key } }
        hq.not_disposed
        (fun hc => hs (hc.trans hq.r1))
        (fun hc => hs (hc.trans hq.view.symm))
        (MobxHistory.normalize_search_good
          { MobxHistory.createLocationStr p with state := none, key := e.location.key }
          (MobxHistory.goodLoc_state_key (MobxHistory.createLocationStr p) hgv none
            e.location.key))
        (MobxHistory.goodLoc_state_key (MobxHistory.createLocationStr p) hgv none
          e.location.key)
        (fun hc => hpath ((MobxHistory.createPath_state_key
          (MobxHistory.createLocationStr p) none e.location.key).symm.trans
          (hq.synced.trans hc).symm))
        (fun hc => hpath (((MobxHistory.createPath_state_key
          (MobxHistory.createLocationStr p) none e.location.key).symm.trans hc).trans hq.r2))
        hq.key_fresh, rfl, rfl, rfl, rfl, rfl⟩

/-- Witness for C5 amended: on concrete engines, assigning the identical
location object is dropped; assigning the string `"/"` over the same
stateless location is a complete no-op; assigning `"/a"` over the same
location carrying a state clears the state with one notification and no
push; and assigning `"/b"` (different canonical path) pushes exactly once
and installs the new fields. -/
theorem MobxHistory.C5_whole_assignment_witness :
    MobxHistory.setLocationFacade 1 MobxHistory.sampleEngine
        (MobxHistory.Loc.own MobxHistory.sampleEngine.location)
      = some MobxHistory.sampleEngine
    ∧ MobxHistory.appSetLocationStr 1 MobxHistory.sampleEngine "/"
      = some MobxHistory.sampleEngine
    ∧ MobxHistory.appSetLocationStr 1 MobxHistory.statedEngine "/a" = some
        { MobxHistory.statedEngine with
          location := { MobxHistory.statedEngine.location with state := none }
          notifyCount := MobxHistory.statedEngine.notifyCount + 1 }
    ∧ ∃ e2, MobxHistory.appSetLocationStr 3 MobxHistory.sampleEngine "/b" = some e2
        ∧ e2.pushCount = MobxHistory.sampleEngine.pushCount + 1
        ∧ e2.location.pathname = (MobxHistory.createLocationStr "/b").pathname :=
  ⟨(MobxHistory.C5_whole_assignment 0 MobxHistory.sampleEngine
      MobxHistory.sampleEngine_quiescent).1 MobxHistory.sampleEngine.location (by decide),
    (MobxHistory.C5_whole_assignment 0 MobxHistory.sampleEngine
      MobxHistory.sampleEngine_quiescent).2.2.1 "/" (by decide) (by decide),
    (MobxHistory.C5_whole_assignment 0 MobxHistory.statedEngine
      MobxHistory.statedEngine_quiescent).2.2.2.1 "/a" (by decide) (by decide),
    by
      obtain ⟨e2, h1, h2, _, h4, _, _⟩ :=
        (MobxHistory.C5_whole_assignment 0 MobxHistory.sampleEngine
          MobxHistory.sampleEngine_quiescent).2.2.2.2.1 "/b"
          ⟨by decide, by decide, by decide, by decide, by decide, by decide⟩
          (by decide)
      exact ⟨e2, h1, h2, h4⟩⟩

namespace MobxHistory

/-- A params-proxy call on a disposed engine still mutates the view and may
re-run the (undisposed) `syncSearchParams` closure, but never reaches the
backend: reactions are disposed, so no push or replace can happen. -/
theorem appParamsOp_disposed (e1 : Engine) (hd : e1.disposed = true)
    (op : Params → Params) (fuel : Nat) :
    ∃ e2, appParamsOp (fuel + 1) e1 op = some e2
      ∧ e2.backend = e1.backend
      ∧ e2.pushCount = e1.pushCount
      ∧ e2.replaceCount = e1.replaceCount := by
  unfold appParamsOp
  by_cases h1 : engineToString e1.searchParams = engineToString (op e1.searchParams)
  · rw [if_pos h1]
    exact ⟨_, rfl, rfl, rfl, rfl⟩
  · rw [if_neg h1]
    unfold syncSPDirect
    by_cases h2 : ({ e1 with searchParams := op e1.searchParams } : Engine).location.search
        = normalize (engineToString
          ({ e1 with searchParams := op e1.searchParams } : Engine).searchParams) "?"
    · rw [if_pos h2]
      exact ⟨_, rfl, rfl, rfl, rfl⟩
    · rw [if_neg h2]
      have hdis : (locFieldStore { e1 with searchParams := op e1.searchParams }
          LocField.search (engineToString (op e1.searchParams))).disposed = true := hd
      have hst : stabilize (fuel + 1)
          (locFieldStore { e1 with searchParams := op e1.searchParams }
            LocField.search (engineToString (op e1.searchParams)))
          = some (locFieldStore { e1 with searchParams := op e1.searchParams }
            LocField.search (engineToString (op e1.searchParams))) := by
        conv_lhs => rw [stabilize]
        rw [if_pos hdis]
      rw [hst]
      exact ⟨_, rfl, rfl, rfl, rfl⟩

end MobxHistory

/-- C8: `destroy` disposes every reaction, the interceptor and the backend
listener, and returns the underlying backend.  Afterwards no propagation
reaches the backend: subsequent backend events leave the engine data
untouched, writes to the previously returned location object mutate it (raw,
un-normalized) without any backend call, params mutations never push or
replace, `searchParams` reads as absent, `location` reads delegate to the
plain backend location, and a second `destroy` is harmless and returns the
same backend. -/
theorem MobxHistory.C8_destroy (e : MobxHistory.Engine) :
    (MobxHistory.destroyOp e).2 = e.backend
    ∧ MobxHistory.facadeSearchParams (MobxHistory.destroyOp e).1 = none
    ∧ MobxHistory.facadeLocation (MobxHistory.destroyOp e).1
        = (MobxHistory.destroyOp e).1.backend.current
    ∧ MobxHistory.destroyOp (MobxHistory.destroyOp e).1
        = ((MobxHistory.destroyOp e).1, e.backend)
    ∧ (∀ (loc : MobxHistory.Loc) (a : MobxHistory.NavAction),
        MobxHistory.onHistoryEvent (MobxHistory.destroyOp e).1 loc a
          = (MobxHistory.destroyOp e).1)
    ∧ (∀ (d : MobxHistory.Loc) (fuel : Nat),
        MobxHistory.extPush (fuel + 1) (MobxHistory.destroyOp e).1 d = some
          { (MobxHistory.destroyOp e).1 with
            backend := ((MobxHistory.destroyOp e).1.backend.doPush d).1
            pushCount := (MobxHistory.destroyOp e).1.pushCount + 1 })
    ∧ (∀ (f : MobxHistory.LocField) (v : String) (fuel : Nat),
        MobxHistory.appFieldWrite (fuel + 1) (MobxHistory.destroyOp e).1 f v = some
          { (MobxHistory.destroyOp e).1 with
            location := (MobxHistory.destroyOp e).1.location.setF f v
            notifyCount := (MobxHistory.destroyOp e).1.notifyCount
              + (if (MobxHistory.destroyOp e).1.location.getF f = v then 0 else 1) })
    ∧ (∀ (op : MobxHistory.Params → MobxHistory.Params) (fuel : Nat),
        ∃ e2, MobxHistory.appParamsOp (fuel + 1) (MobxHistory.destroyOp e).1 op = some e2
          ∧ e2.backend = e.backend
          ∧ e2.pushCount = e.pushCount
          ∧ e2.replaceCount = e.replaceCount) := by
  refine ⟨rfl, rfl, rfl, rfl, fun loc a => rfl, fun d fuel => ?_, fun f v fuel => ?_,
    fun op fuel => MobxHistory.appParamsOp_disposed (MobxHistory.destroyOp e).1 rfl op fuel⟩
  · unfold MobxHistory.extPush
    rfl
  · unfold MobxHistory.appFieldWrite
    conv_lhs => rw [MobxHistory.stabilize]
    rfl

/-- Counterexample for C9: the extended `toString` of src/index.ts (and of
src/lib/search-params.ts, same algorithm) applied to an empty view with
`withPrefix = true` and the default `encodeURI` encoder returns `"?"`, not
the empty string the claim demands. -/
theorem MobxHistory.C9_counterexample :
    MobxHistory.extToString [] (MobxHistory.UriEncoder.custom MobxHistory.encodeURIStr) true
        = "?"
    ∧ MobxHistory.extToString [] (MobxHistory.UriEncoder.custom MobxHistory.encodeURIStr) true
        ≠ "" := by
  constructor
  · rfl
  · decide

/-- C9 amended: only `ObservableSearchParams.toString`
(src/lib/observable-search-params.ts) prepends `?` conditionally — an empty
view yields the empty string; the extended-`URLSearchParams` `toString` of
src/index.ts and src/lib/search-params.ts prepends `?` unconditionally
whenever `withPrefix` is true, so an empty view yields `"?"`. -/
theorem MobxHistory.C9_toString_withPrefix (search : String) (ps : MobxHistory.Params)
    (enc : MobxHistory.UriEncoder) :
    (search = "" → MobxHistory.obsToString search true = "")
    ∧ (search ≠ "" → MobxHistory.obsToString search true = "?" ++ search)
    ∧ MobxHistory.extToString ps enc true = "?" ++ MobxHistory.extToString ps enc false := by
  refine ⟨fun h => ?_, fun h => ?_, ?_⟩
  · simp [MobxHistory.obsToString, h]
  · simp [MobxHistory.obsToString, h]
  · cases enc with
    | componentNative =>
      show "?" ++ MobxHistory.nativeToString ps = "?" ++ ("" ++ MobxHistory.nativeToString ps)
      rw [String.empty_append]
    | custom f =>
      show "?" ++ _ = "?" ++ ("" ++ _)
      rw [String.empty_append]

/-- Witness for C9 amended: the observable view yields the empty string on
an empty search, a non-empty search gets the prefix, and the extended
`toString` of an empty view yields a bare `"?"`. -/
theorem MobxHistory.C9_toString_withPrefix_witness :
    MobxHistory.obsToString "" true = ""
    ∧ MobxHistory.obsToString "x=1" true = "?" ++ "x=1"
    ∧ MobxHistory.extToString []
        (MobxHistory.UriEncoder.custom MobxHistory.encodeURIStr) true
      = "?" ++ MobxHistory.extToString []
          (MobxHistory.UriEncoder.custom MobxHistory.encodeURIStr) false :=
  ⟨(MobxHistory.C9_toString_withPrefix "" []
      (MobxHistory.UriEncoder.custom MobxHistory.encodeURIStr)).1 rfl,
    (MobxHistory.C9_toString_withPrefix "x=1" []
      (MobxHistory.UriEncoder.custom MobxHistory.encodeURIStr)).2.1 (by decide),
    (MobxHistory.C9_toString_withPrefix "" []
      (MobxHistory.UriEncoder.custom MobxHistory.encodeURIStr)).2.2⟩

namespace MobxHistory

theorem stripQuery_prefixQ (t : String) : stripQuery ("?" ++ t) = t := by
  have h : ("?" ++ t).toList = '?' :: t.data := by
    show ("?" ++ t).data = '?' :: t.data
    rw [String.data_append]
    rfl
  unfold stripQuery
  rw [h]
  rfl

end MobxHistory

/-- Counterexample for C2: pushing `/p?a&b` through the backend of a
concrete engine reaches a quiescent state (a fixpoint of the batch runner)
whose composite query, stripped of `?`, is `a&b` while the view serializes
to `a=&b=` — the claimed equality fails on reachable quiescent states whose
query does not round-trip through the view parse/serialize pair. -/
theorem MobxHistory.C2_counterexample :
    (MobxHistory.extPush 9 MobxHistory.sampleEngine
        ⟨"/p", "?a&b", "", none, none⟩).map
        (fun e2 => (MobxHistory.stripQuery e2.location.search,
          MobxHistory.engineToString e2.searchParams))
      = some ("a&b", "a=&b=")
    ∧ ((MobxHistory.extPush 9 MobxHistory.sampleEngine
        ⟨"/p", "?a&b", "", none, none⟩).bind (MobxHistory.stabilize 1))
      = MobxHistory.extPush 9 MobxHistory.sampleEngine ⟨"/p", "?a&b", "", none, none⟩
    ∧ ("a&b" : String) ≠ "a=&b=" := by
  refine ⟨by decide, by decide, by decide⟩

/-- C2 amended: at quiescence both representations derive from one canonical
string: after a view mutation whose canonical string `newV` (trimmed,
non-empty, not already `?`-prefixed) differs from the stored query, the
composite query becomes `?newV` and the view is rebuilt as
`parseSearch newV`; hence `ParameterView.toString()` equals the query
stripped of `?` exactly when `newV` round-trips through parse-then-serialize
(`engineToString (parseSearch newV) = newV`).  Non-round-tripping queries —
e.g. `?a&b` arriving from the backend — leave the two representations
different. -/
theorem MobxHistory.C2_view_query_sync (fuel : Nat) (e : MobxHistory.Engine)
    (op : MobxHistory.Params → MobxHistory.Params)
    (hq : MobxHistory.Quiescent e)
    (hchanged : MobxHistory.engineToString (op e.searchParams)
      ≠ MobxHistory.engineToString e.searchParams)
    (hnorm : MobxHistory.normalize (MobxHistory.engineToString (op e.searchParams)) "?"
      ≠ e.location.search)
    (hg2 : MobxHistory.GoodLoc (e.location.setF MobxHistory.LocField.search
      (MobxHistory.normalize (MobxHistory.engineToString (op e.searchParams)) "?")))
    (htrim : MobxHistory.jsTrim (MobxHistory.engineToString (op e.searchParams))
      = MobxHistory.engineToString (op e.searchParams))
    (hne : MobxHistory.engineToString (op e.searchParams) ≠ "")
    (hnp : ¬ ("?" : String).toList.isPrefixOf
      (MobxHistory.engineToString (op e.searchParams)).toList) :
    ∃ e2, MobxHistory.appParamsOp (fuel + 3) e op = some e2
      ∧ e2.searchParams
          = MobxHistory.parseSearch (MobxHistory.engineToString (op e.searchParams))
      ∧ MobxHistory.stripQuery e2.location.search
          = MobxHistory.engineToString (op e.searchParams)
      ∧ (MobxHistory.stripQuery e2.location.search
            = MobxHistory.engineToString e2.searchParams
          ↔ MobxHistory.engineToString
              (MobxHistory.parseSearch (MobxHistory.engineToString (op e.searchParams)))
            = MobxHistory.engineToString (op e.searchParams)) := by
  have hnq : MobxHistory.jsTrim (MobxHistory.engineToString (op e.searchParams)) ≠ "?" := by
    rw [htrim]
    intro hc
    exact hnp (by rw [hc]; decide)
  have hnormval : MobxHistory.normalize (MobxHistory.engineToString (op e.searchParams)) "?"
      = "?" ++ MobxHistory.engineToString (op e.searchParams) := by
    have h3 := (MobxHistory.C3_normalize_cases
      (MobxHistory.engineToString (op e.searchParams)) "?" (Or.inl rfl)).2.2
      (by rw [htrim]; exact hne) hnq (by rw [htrim]; exact hnp)
    rw [h3, htrim]
  obtain ⟨e2, heq, hsearch, hparams, _⟩ :=
    (MobxHistory.C6_canonical_change_detection fuel e hq).2.1 op
      (fun hc => hchanged hc) hnorm hg2
  refine ⟨e2, heq, hparams, ?_, ?_⟩
  · rw [hsearch, hnormval, MobxHistory.stripQuery_prefixQ]
  · rw [hsearch, hnormval, MobxHistory.stripQuery_prefixQ, hparams]
    exact eq_comm

/-- Witness for C2 amended: appending `x=1` on a concrete empty engine
yields query `?x=1` and view `[(x,1)]`; the canonical string round-trips,
so the two representations agree at the new quiescent point. -/
theorem MobxHistory.C2_view_query_sync_witness :
    ∃ e2, MobxHistory.appParamsOp 3 MobxHistory.sampleEngine
        (fun ps => MobxHistory.paramsAppend ps "x" "1") = some e2
      ∧ e2.searchParams = MobxHistory.parseSearch
          (MobxHistory.engineToString
            (MobxHistory.paramsAppend MobxHistory.sampleEngine.searchParams "x" "1"))
      ∧ MobxHistory.stripQuery e2.location.search
          = MobxHistory.engineToString
            (MobxHistory.paramsAppend MobxHistory.sampleEngine.searchParams "x" "1")
      ∧ (MobxHistory.stripQuery e2.location.search
            = MobxHistory.engineToString e2.searchParams
          ↔ MobxHistory.engineToString (MobxHistory.parseSearch
              (MobxHistory.engineToString
                (MobxHistory.paramsAppend MobxHistory.sampleEngine.searchParams "x" "1")))
            = MobxHistory.engineToString
              (MobxHistory.paramsAppend MobxHistory.sampleEngine.searchParams "x" "1")) :=
  MobxHistory.C2_view_query_sync 0 MobxHistory.sampleEngine
    (fun ps => MobxHistory.paramsAppend ps "x" "1")
    MobxHistory.sampleEngine_quiescent
    (by decide) (by decide)
    ⟨by decide, by decide, by decide, by decide, by decide, by decide⟩
    (by decide) (by decide) (by decide)

